import Mathlib

/-!
Verification of the Article Clustering & Coverage-Balance Engine of the
`unbiased-news` repository.

The development shallowly embeds the relevant TypeScript sources:
  * `src/core/aggregator/story-aggregator.ts` (entity/keyword extraction,
    greedy clustering, coverage analysis),
  * `src/core/sources/registry.ts` (the static source registry),
  * `src/core/analysis/analyzer.ts` (the `BiasAnalyzer`),
  * `web/src/lib/clustering/similarity.ts` (TF-IDF preprocessing, cosine
    similarity, the pairwise similarity matrix, union-find clustering and the
    clustering pipeline).

JavaScript `Map`s are embedded as association lists with an overwriting
`mset` (a `Map` keeps at most one entry per key; `Map.set` overwrites in
place, `Map.get` returns the entry).  JavaScript numbers are embedded as `ℚ`
where the code only performs field operations and comparisons, and as `ℝ`
where it takes square roots or logarithms.
-/
/-! ## Association-list model of JavaScript `Map` -/
/-- `Map.get`: the value stored at key `k`, if any. -/
def mget {α β : Type} [DecidableEq α] (m : List (α × β)) (k : α) : Option β :=
  match m with
  | [] => none
  | (k', v) :: rest => if k' = k then some v else mget rest k

/-- `Map.set`: overwrite the entry at key `k` in place, or append a new entry. -/
def mset {α β : Type} [DecidableEq α] (m : List (α × β)) (k : α) (v : β) :
    List (α × β) :=
  match m with
  | [] => [(k, v)]
  | (k', v') :: rest =>
    if k' = k then (k', v) :: rest else (k', v') :: mset rest k v

/-- The keys of an embedded map, in insertion order. -/
def mkeys {α β : Type} (m : List (α × β)) : List α := m.map Prod.fst

/-! ## Data model (`src/types/index.ts`)

Fields that none of the embedded functions reads (URLs, RSS feeds, authors,
categories, fetch timestamps, metadata) are omitted; timestamps are embedded
as rational epoch milliseconds. -/
/-- `BiasIndicators`: five bias dimensions; `politicalLean` ranges over
`[-1, 1]`, the rest over `[0, 1]`. -/
structure BiasIndicators where
  politicalLean : ℚ
  sensationalism : ℚ
  factualAccuracy : ℚ
  opinionMixing : ℚ
  transparency : ℚ
deriving DecidableEq, Repr

/-- `SourceCategory` (the `local` and `independent` categories are unused by
the registry but part of the union type). -/
inductive SourceCategory where
  | mainstream | wire | broadcast | digitalNative
  | publicMedia | localNews | international | independent
deriving DecidableEq, Repr

/-- `NewsSource`: static reference data for one outlet. -/
structure NewsSource where
  id : String
  name : String
  knownBias : BiasIndicators
  reliabilityScore : ℚ
  category : SourceCategory
deriving DecidableEq, Repr

/-- `ExtractedEntity.type`. -/
inductive EntityType where
  | person | organization | location | event | other
deriving DecidableEq, Repr

/-- `ExtractedEntity`: one extracted entity candidate with its occurrence
count. -/
structure ExtractedEntity where
  text : String
  type : EntityType
  count : Nat
deriving DecidableEq, Repr

/-- `NewsArticle`: one ingested article. -/
structure NewsArticle where
  id : String
  title : String
  sourceId : String
  publishedAt : ℚ
  summary : String
  content : Option String
  entities : List ExtractedEntity
deriving DecidableEq, Repr

/-- `BiasEvidence`: one matched snippet supporting an indicator. -/
structure BiasEvidence where
  text : String
  indicatorType : String
  explanation : String
deriving DecidableEq, Repr

/-- `BiasAnalysis.method`. -/
inductive AnalysisMethod where
  | staticM | heuristic | llm | combined
deriving DecidableEq, Repr

/-- `BiasAnalysis`: the scorer's result record. -/
structure BiasAnalysis where
  indicators : BiasIndicators
  confidence : ℚ
  summary : String
  evidence : List BiasEvidence
  method : AnalysisMethod
deriving DecidableEq, Repr

/-- `AnalysisConfig` (the optional `llmModel` field is never read). -/
structure AnalysisConfig where
  method : AnalysisMethod
  includeEvidence : Bool
deriving DecidableEq, Repr

/-- `AggregationConfig`. -/
structure AggregationConfig where
  similarityThreshold : ℚ
  timeWindowHours : ℚ
  minArticlesPerStory : Nat
deriving DecidableEq, Repr

/-- `leanDistribution`: counts of left/center/right sources. -/
structure LeanDistribution where
  left : Nat
  center : Nat
  right : Nat
deriving DecidableEq, Repr

/-- One perspective inside a `FramingDifference`. -/
structure FramingPerspective where
  sourceId : String
  framing : String
deriving DecidableEq, Repr

/-- `FramingDifference`. -/
structure FramingDifference where
  aspect : String
  perspectives : List FramingPerspective
deriving DecidableEq, Repr

/-- `coverageBalance` verdict. -/
inductive CoverageBalance where
  | balanced | leftHeavy | rightHeavy | limited
deriving DecidableEq, Repr

/-- `CoverageAnalysis`. -/
structure CoverageAnalysis where
  sourceCount : Nat
  leanDistribution : LeanDistribution
  averageBias : BiasIndicators
  framingDifferences : List FramingDifference
  coverageBalance : CoverageBalance
deriving DecidableEq, Repr

/-! ## Source registry (`src/core/sources/registry.ts`)

Each `knownBias` record is `createBias(lean, overrides)` with the overrides
applied (every registry entry overrides all four non-lean dimensions). -/
/-- `ALL_SOURCES`: the sixteen pre-configured sources, in registry order
(wire, mainstream, broadcast, public, digital-native, international). -/
def ALL_SOURCES : List NewsSource := [
  ⟨"ap", "Associated Press", ⟨0, 0.1, 0.95, 0.1, 0.9⟩, 0.95, .wire⟩,
  ⟨"reuters", "Reuters", ⟨0, 0.1, 0.95, 0.1, 0.9⟩, 0.95, .wire⟩,
  ⟨"nyt", "The New York Times", ⟨-0.25, 0.2, 0.85, 0.4, 0.8⟩, 0.85, .mainstream⟩,
  ⟨"wsj", "The Wall Street Journal", ⟨0.25, 0.2, 0.85, 0.5, 0.8⟩, 0.85, .mainstream⟩,
  ⟨"wapo", "The Washington Post", ⟨-0.25, 0.3, 0.85, 0.4, 0.8⟩, 0.85, .mainstream⟩,
  ⟨"cnn", "CNN", ⟨-0.5, 0.5, 0.75, 0.6, 0.6⟩, 0.7, .broadcast⟩,
  ⟨"fox", "Fox News", ⟨0.5, 0.6, 0.65, 0.7, 0.5⟩, 0.6, .broadcast⟩,
  ⟨"msnbc", "MSNBC", ⟨-0.5, 0.6, 0.7, 0.75, 0.5⟩, 0.6, .broadcast⟩,
  ⟨"npr", "NPR", ⟨-0.25, 0.15, 0.9, 0.3, 0.85⟩, 0.9, .publicMedia⟩,
  ⟨"pbs", "PBS NewsHour", ⟨-0.25, 0.1, 0.9, 0.2, 0.9⟩, 0.9, .publicMedia⟩,
  ⟨"bbc", "BBC News", ⟨0, 0.2, 0.9, 0.2, 0.85⟩, 0.9, .publicMedia⟩,
  ⟨"axios", "Axios", ⟨-0.25, 0.3, 0.85, 0.35, 0.75⟩, 0.8, .digitalNative⟩,
  ⟨"politico", "Politico", ⟨-0.25, 0.35, 0.8, 0.4, 0.7⟩, 0.8, .digitalNative⟩,
  ⟨"thehill", "The Hill", ⟨0, 0.4, 0.75, 0.5, 0.65⟩, 0.75, .digitalNative⟩,
  ⟨"dailywire", "The Daily Wire", ⟨0.5, 0.5, 0.65, 0.75, 0.5⟩, 0.6, .digitalNative⟩,
  ⟨"guardian-us", "The Guardian (US)", ⟨-0.5, 0.35, 0.8, 0.5, 0.8⟩, 0.8, .international⟩,
  ⟨"aljazeera", "Al Jazeera English", ⟨-0.25, 0.3, 0.75, 0.4, 0.7⟩, 0.75, .international⟩]

/-- `getSource`: first registry entry with the given id. -/
def getSource (id : String) : Option NewsSource :=
  ALL_SOURCES.find? (fun s => s.id = id)

namespace StoryAggregator

/-! ## Coverage analysis (`StoryAggregator.analyzeCoverage` and helpers) -/
/-- `StoryAggregator.average`: arithmetic mean, `0` for the empty list. -/
def average (nums : List ℚ) : ℚ :=
  if nums.length = 0 then 0 else nums.sum / nums.length

/-- `StoryAggregator.detectFramingDifferences`: placeholder structural note
listing up to three member headlines. -/
def detectFramingDifferences (articles : List NewsArticle) :
    List FramingDifference :=
  if articles.length < 2 then []
  else [⟨"headline", (articles.take 3).map (fun a => ⟨a.sourceId, a.title⟩)⟩]

/-- One iteration of the `analyzeCoverage` loop: an article whose source is
not in the registry is skipped (`if (!source) continue`); a resolved source is
bucketed by `politicalLean` with cutoffs `±0.2` and its `knownBias` pushed. -/
def coverageStep (acc : LeanDistribution × List BiasIndicators)
    (a : NewsArticle) : LeanDistribution × List BiasIndicators :=
  match getSource a.sourceId with
  | none => acc
  | some source =>
    let ld := acc.1
    let lean := source.knownBias.politicalLean
    let ld' :=
      if lean < -0.2 then { ld with left := ld.left + 1 }
      else if lean > 0.2 then { ld with right := ld.right + 1 }
      else { ld with center := ld.center + 1 }
    (ld', acc.2 ++ [source.knownBias])

/-- The `analyzeCoverage` loop over the member articles. -/
def coverageFold (articles : List NewsArticle) :
    LeanDistribution × List BiasIndicators :=
  articles.foldl coverageStep (⟨0, 0, 0⟩, [])

/-- `StoryAggregator.analyzeCoverage`: distinct-source count, lean
distribution, average bias, framing differences and the balance verdict. -/
def analyzeCoverage (articles : List NewsArticle) : CoverageAnalysis :=
  let sourceCount := ((articles.map (·.sourceId)).dedup).length
  let folded := coverageFold articles
  let leanDistribution := folded.1
  let biasScores := folded.2
  let averageBias : BiasIndicators :=
    ⟨average (biasScores.map (fun b => b.politicalLean)),
     average (biasScores.map (·.sensationalism)),
     average (biasScores.map (·.factualAccuracy)),
     average (biasScores.map (·.opinionMixing)),
     average (biasScores.map (·.transparency))⟩
  let coverageBalance :=
    if sourceCount < 3 then CoverageBalance.limited
    else if leanDistribution.left > leanDistribution.right * 2 then
      CoverageBalance.leftHeavy
    else if leanDistribution.right > leanDistribution.left * 2 then
      CoverageBalance.rightHeavy
    else CoverageBalance.balanced
  ⟨sourceCount, leanDistribution, averageBias,
   detectFramingDifferences articles, coverageBalance⟩

end StoryAggregator

/-! ## Claims C1 and C10: coverage analysis -/
/-- The `knownBias` records of the members whose source resolves in the
registry, in member order. -/
def resolvedBias (articles : List NewsArticle) : List BiasIndicators :=
  articles.filterMap (fun a => (getSource a.sourceId).map (·.knownBias))

/-- A five-member cluster whose resolved sources bucket 4 left / 1 center /
0 right, with five distinct sources. -/
def demoLeftHeavy : List NewsArticle := [
  ⟨"a1", "t1", "cnn", 0, "", none, []⟩,
  ⟨"a2", "t2", "msnbc", 0, "", none, []⟩,
  ⟨"a3", "t3", "guardian-us", 0, "", none, []⟩,
  ⟨"a4", "t4", "nyt", 0, "", none, []⟩,
  ⟨"a5", "t5", "ap", 0, "", none, []⟩]

/-- A six-member cluster whose resolved sources bucket 2 left / 2 center /
2 right. -/
def demoBalanced : List NewsArticle := [
  ⟨"b1", "t1", "cnn", 0, "", none, []⟩,
  ⟨"b2", "t2", "msnbc", 0, "", none, []⟩,
  ⟨"b3", "t3", "ap", 0, "", none, []⟩,
  ⟨"b4", "t4", "reuters", 0, "", none, []⟩,
  ⟨"b5", "t5", "fox", 0, "", none, []⟩,
  ⟨"b6", "t6", "dailywire", 0, "", none, []⟩]

/-- A three-member cluster with one member whose source does not resolve. -/
def demoUnknownSource : List NewsArticle := [
  ⟨"u1", "t1", "ap", 0, "", none, []⟩,
  ⟨"u2", "t2", "reuters", 0, "", none, []⟩,
  ⟨"u3", "t3", "nosuch", 0, "", none, []⟩]

namespace WebClustering

/-! ## Web clustering library (`web/src/lib/clustering/similarity.ts`)

Weights are embedded as `ℝ` (the code takes square roots and logarithms).
The `!` non-null assertions of the source are embedded as `Option.getD`
defaults; the theorems' hypotheses keep execution on the paths where the
source assertions hold. -/
/-- The web stop-word set of `preprocessText`, in source order. -/
def stopWords : List String := [
  "a", "an", "the", "and", "or", "but", "in", "on", "at", "to", "for",
  "of", "with", "by", "from", "as", "is", "was", "are", "were", "been",
  "be", "have", "has", "had", "do", "does", "did", "will", "would",
  "could", "should", "may", "might", "can", "shall", "this", "that",
  "these", "those", "it", "its", "it\x27s", "he", "she", "his", "her",
  "they", "their", "them", "we", "our", "us", "you", "your", "i", "my",
  "me", "what", "which", "who", "whom", "when", "where", "why", "how",
  "all", "each", "every", "both", "few", "more", "most", "other", "some",
  "such", "no", "nor", "not", "only", "same", "so", "than", "too", "very",
  "just", "also", "now", "here", "there", "then", "once", "if", "because",
  "about", "into", "through", "during", "before", "after", "above", "below",
  "between", "under", "again", "further", "any", "says", "said", "new"]

/-- A word character for tokenization purposes: letter, digit or underscore. -/
def isWordChar (c : Char) : Bool := c.isAlphanum || c = '_'

/-- Split a character list on runs of non-word characters, accumulating the
current (reversed) token. -/
def splitNonWord : List Char → List Char → List String
  | [], cur => if cur.isEmpty then [] else [String.mk cur.reverse]
  | c :: rest, cur =>
    if isWordChar c then splitNonWord rest (c :: cur)
    else if cur.isEmpty then splitNonWord rest []
    else String.mk cur.reverse :: splitNonWord rest []

/-- Modelled from the spec: the tokenizer is the external
`natural.WordTokenizer`, which is not part of this repository's sources; per
spec §4.1 it strips all non-word characters and splits the text into the
remaining maximal word-character runs. -/
def wordTokenize (s : String) : List String := splitNonWord s.toList []

/-- `true` for the lowercase vowels. -/
def isVowelChar (c : Char) : Bool :=
  c = 'a' || c = 'e' || c = 'i' || c = 'o' || c = 'u'

/-- ASCII `toLowerCase` (all embedded text is ASCII). -/
def asciiLower (s : String) : String :=
  String.mk (s.toList.map Char.toLower)

/-- Modelled from the spec: the stemmer is the external
`natural.PorterStemmer`, which is not part of this repository's sources; per
spec §4.1 it applies "a stemming reduction (e.g., running -> run) to merge
morphological variants".  The model implements the Porter-family rule behind
the spec's example: strip a trailing `ing` when the remaining stem contains a
vowel, collapsing a resulting trailing double letter (running -> runn -> run,
doing -> do). -/
def stem (w : String) : String :=
  match w.toList.reverse with
  | 'g' :: 'n' :: 'i' :: baseRev =>
    if baseRev.any isVowelChar then
      match baseRev with
      | c1 :: c2 :: rest =>
        if c1 = c2 && !isVowelChar c1 then String.mk (c2 :: rest).reverse
        else String.mk baseRev.reverse
      | _ => String.mk baseRev.reverse
    else w
  | _ => w

/-- `true` exactly on tokens matching `/^\d+$/`. -/
def isPureNumeric (token : String) : Bool :=
  !token.isEmpty && token.toList.all Char.isDigit

/-- The filter of `preprocessText`: drop tokens shorter than 3 characters,
stop words, and purely numeric tokens. -/
def keepToken (token : String) : Bool :=
  if token.length < 3 then false
  else if stopWords.contains token then false
  else if isPureNumeric token then false
  else true

/-- `preprocessText`: lowercase, tokenize, filter, then stem. -/
def preprocessText (text : String) : List String :=
  if text = "" then []
  else ((wordTokenize (asciiLower text)).filter keepToken).map stem

/-- `DocumentVector`: a sparse term-weight vector for one document. -/
structure DocumentVector where
  id : String
  vector : List (String × ℝ)
  text : String

/-- The accumulated `norm1`/`norm2` of `cosineSimilarity`: the sum of the
squares of the weights. -/
def normSq (v : List (String × ℝ)) : ℝ :=
  (v.map (fun p => p.2 * p.2)).sum

/-- The accumulated `dotProduct` of `cosineSimilarity`: for each entry of
`vec1` whose term `vec2` also holds, the product of the two weights. -/
def dotProduct (v1 v2 : List (String × ℝ)) : ℝ :=
  (v1.map (fun p =>
    match mget v2 p.1 with
    | none => 0
    | some w => p.2 * w)).sum

open Classical in
/-- `cosineSimilarity`: dot product over the norms, with the
division-by-zero guard returning `0`. -/
noncomputable def cosineSimilarity (v1 v2 : List (String × ℝ)) : ℝ :=
  let denom := Real.sqrt (normSq v1) * Real.sqrt (normSq v2)
  if denom = 0 then 0 else dotProduct v1 v2 / denom

/-- `vectors[i]`, with a default that no in-bounds access reaches. -/
def vget (vs : List DocumentVector) (i : Nat) : DocumentVector :=
  vs.getD i ⟨"", [], ""⟩

/-- The value `row.set(vectors[j].id, _)` stores while building row `i`
against the partial matrix `m`: `1.0` on the diagonal, the mirrored value
`matrix.get(vectors[j].id)!.get(vectors[i].id)!` below it, a fresh cosine
above it. -/
noncomputable def simEntry (vs : List DocumentVector)
    (m : List (String × List (String × ℝ))) (i j : Nat) : ℝ :=
  if i = j then 1
  else if j < i then
    (mget ((mget m (vget vs j).id).getD []) (vget vs i).id).getD 0
  else cosineSimilarity (vget vs i).vector (vget vs j).vector

/-- The inner `for (let j = 0; j < vectors.length; j++)` loop of
`calculateSimilarityMatrix`, building row `i` left to right. -/
noncomputable def simRowAux (vs : List DocumentVector)
    (m : List (String × List (String × ℝ))) (i : Nat) :
    Nat → List (String × ℝ)
  | 0 => []
  | j + 1 => mset (simRowAux vs m i j) (vget vs j).id (simEntry vs m i j)

/-- The outer `for (let i = 0; i < vectors.length; i++)` loop of
`calculateSimilarityMatrix`: each finished row is stored under its
document's id. -/
noncomputable def simMatrixAux (vs : List DocumentVector) :
    Nat → List (String × List (String × ℝ))
  | 0 => []
  | i + 1 =>
    let m := simMatrixAux vs i
    mset m (vget vs i).id (simRowAux vs m i vs.length)

/-- `calculateSimilarityMatrix`: the full pairwise matrix. -/
noncomputable def calculateSimilarityMatrix (vs : List DocumentVector) :
    List (String × List (String × ℝ)) :=
  simMatrixAux vs vs.length

/-- The entry of the finished matrix at `(idA, idB)`, if present. -/
def matrixEntry (m : List (String × List (String × ℝ)))
    (idA idB : String) : Option ℝ :=
  (mget m idA).bind (fun row => mget row idB)

open Classical in
/-- `findSimilarDocuments`: the ids in `docId`'s row whose similarity meets
the threshold, excluding `docId` itself; `[]` when the row is missing. -/
noncomputable def findSimilarDocuments (docId : String)
    (matrix : List (String × List (String × ℝ))) (threshold : ℝ) :
    List String :=
  match mget matrix docId with
  | none => []
  | some row =>
    (row.filter (fun p => p.1 ≠ docId ∧ threshold ≤ p.2)).map Prod.fst

/-! ## Claim C4: similarity-matrix symmetry and unit diagonal -/
/-- The value the final matrix is expected to hold at `(ids i, ids j)`:
`1` on the diagonal, the cosine of the lower-index/higher-index pair off it. -/
noncomputable def expectedEntry (vs : List DocumentVector) (i j : Nat) : ℝ :=
  if i = j then 1
  else if i < j then
    cosineSimilarity (vget vs i).vector (vget vs j).vector
  else cosineSimilarity (vget vs j).vector (vget vs i).vector

/-- The invariant after the outer loop has processed rows `0, …, k-1`:
each processed document id maps to a complete row holding the expected
entries. -/
def MatInv (vs : List DocumentVector) (k : Nat)
    (m : List (String × List (String × ℝ))) : Prop :=
  ∀ i, i < k → ∃ r, mget m (vget vs i).id = some r ∧
    ∀ j, j < vs.length → mget r (vget vs j).id = some (expectedEntry vs i j)

end WebClustering

/-- A concrete two-document batch: one empty vector, one singleton vector. -/
noncomputable def demoVectors : List WebClustering.DocumentVector :=
  [⟨"a", [], "t"⟩, ⟨"b", [("x", (2 : ℝ))], "u"⟩]

namespace WebClustering

/-! ## Web clustering pipeline (`web/src/lib/clustering/similarity.ts`) -/
/-- `SIMILARITY_THRESHOLD`: similarity needed to group two articles. -/
noncomputable def SIMILARITY_THRESHOLD : ℝ := 0.3

/-- `MIN_CLUSTER_SIZE`: minimum articles to form a story. -/
def MIN_CLUSTER_SIZE : Nat := 2

/-- The web `Article`, restricted to the fields the clustering code reads
(`id`, `title`, `description`); the presentation fields (url, image, source
name, bias score, timestamps) are never read by the embedded functions. -/
structure WebArticle where
  id : String
  title : String
  description : Option String
deriving DecidableEq, Repr

open Classical in
/-- `buildTfIdfVectors`.  The combined text (`title` + space + description,
empty for `null`) and the preprocessing are from the source.  Modelled from
the spec: the term weighting is the external `natural` library's TfIdf model,
absent from this repository's sources; per spec §4.2 the weight of term `t`
in document `d` is (term frequency of `t` in `d`) × log(N / document
frequency of `t`), with a document-frequency floor of 1, and zero-weight
terms are omitted from the sparse vector. -/
noncomputable def buildTfIdfVectors (documents : List WebArticle) :
    List DocumentVector :=
  let processedDocs := documents.map (fun doc =>
    let combinedText := doc.title ++ " " ++ doc.description.getD ""
    (doc.id, combinedText, preprocessText combinedText))
  processedDocs.map (fun pd =>
    let vector := pd.2.2.dedup.filterMap (fun t =>
      let tf := (pd.2.2.filter (fun u => u = t)).length
      let df := (processedDocs.filter (fun other => t ∈ other.2.2)).length
      let w := (tf : ℝ) * Real.log ((documents.length : ℝ) / (max df 1 : Nat))
      if w = 0 then none else some (t, w))
    ⟨pd.1, vector, pd.2.1⟩)

/-- The union-find state: `parent` and `rank` maps over document ids. -/
structure UnionFind where
  parent : List (String × String)
  rank : List (String × Nat)

/-- The `UnionFind` constructor: every id becomes its own root with rank 0. -/
def UnionFind.init (ids : List String) : UnionFind :=
  ⟨ids.foldl (fun m id => mset m id id) [],
    ids.foldl (fun m id => mset m id 0) []⟩

/-- `UnionFind.find` with path compression, on the parent map.  The source
recursion `find(parent.get(x)!)` terminates because parent pointers are
acyclic on every state reachable through the API; the embedding passes fuel
(the number of tracked ids bounds the chain length, so the fuel is never
exhausted on reachable states) and returns the node itself where the source
would dereference a missing key. -/
def findAux : Nat → List (String × String) → String →
    String × List (String × String)
  | 0, p, x => (x, p)
  | fuel + 1, p, x =>
    match mget p x with
    | none => (x, p)
    | some px =>
      if px = x then (x, p)
      else
        let rp := findAux fuel p px
        (rp.1, mset rp.2 x rp.1)

/-- `UnionFind.find`: the root of `x`, with the compressed parent map. -/
def UnionFind.find (uf : UnionFind) (x : String) : String × UnionFind :=
  let rp := findAux uf.parent.length uf.parent x
  (rp.1, { uf with parent := rp.2 })

/-- `UnionFind.union` by rank (the `!` rank lookups embedded as `getD 0`). -/
def UnionFind.union (uf : UnionFind) (x y : String) : UnionFind :=
  let fx := uf.find x
  let fy := fx.2.find y
  let rootX := fx.1
  let rootY := fy.1
  let uf2 := fy.2
  if rootX = rootY then uf2
  else
    let rankX := (mget uf2.rank rootX).getD 0
    let rankY := (mget uf2.rank rootY).getD 0
    if rankX < rankY then { uf2 with parent := mset uf2.parent rootX rootY }
    else if rankY < rankX then
      { uf2 with parent := mset uf2.parent rootY rootX }
    else
      { uf2 with
        parent := mset uf2.parent rootY rootX
        rank := mset uf2.rank rootX (rankX + 1) }

/-- `UnionFind.getClusters`: group the tracked ids by their root.  The source
iterates the keys of `this.parent` (a snapshot — `find` mutates only values)
and pushes each id onto its root's bucket; the embedding returns the mutated
state alongside the buckets. -/
def UnionFind.getClusters (uf : UnionFind) :
    List (String × List String) × UnionFind :=
  (mkeys uf.parent).foldl
    (fun acc id =>
      let r := acc.2.find id
      (mset acc.1 r.1 (((mget acc.1 r.1).getD []) ++ [id]), r.2))
    ([], uf)

/-- The union phase of `clusterArticles`: vectors, similarity matrix, then
for every article a union with each of its above-threshold neighbours. -/
noncomputable def clusterUnionFind (articles : List WebArticle) : UnionFind :=
  let vectors := buildTfIdfVectors
    (articles.map (fun a => ⟨a.id, a.title, a.description⟩))
  let similarityMatrix := calculateSimilarityMatrix vectors
  articles.foldl
    (fun uf a =>
      (findSimilarDocuments a.id similarityMatrix SIMILARITY_THRESHOLD).foldl
        (fun uf otherId => uf.union a.id otherId) uf)
    (UnionFind.init (articles.map (·.id)))

/-- The disjoint groups of `clusterArticles` before the size filter. -/
noncomputable def clusterGroups (articles : List WebArticle) :
    List (String × List String) :=
  ((clusterUnionFind articles).getClusters).1

/-- The article-by-id map `new Map(articles.map(a => [a.id, a]))`. -/
def buildArticleMap (articles : List WebArticle) :
    List (String × WebArticle) :=
  articles.foldl (fun m a => mset m a.id a) []

/-- `clusterArticles`: the groups of at least `MIN_CLUSTER_SIZE` ids, mapped
back to articles (the source's `.map(id => articleMap.get(id)!).filter(Boolean)`
is embedded as `filterMap`). -/
noncomputable def clusterArticles (articles : List WebArticle) :
    List (String × List WebArticle) :=
  if articles.length = 0 then []
  else
    let articleMap := buildArticleMap articles
    (clusterGroups articles).foldl
      (fun result c =>
        if MIN_CLUSTER_SIZE ≤ c.2.length then
          mset result c.1 (c.2.filterMap (fun id => mget articleMap id))
        else result)
      []

/-- The id bookkeeping of the `clusterIntoStories` pipeline: per accepted
cluster the member article ids (the values of `clusteredArticleIds`), and the
ids of input articles absent from the clustered set (`unclusteredIds`).
Story-object creation (AI analysis, random story ids, wall-clock timestamps)
is impure and not part of the embedded state. -/
noncomputable def clusterIntoStoriesIds (articles : List WebArticle) :
    List (List String) × List String :=
  let clusters := clusterArticles articles
  let clusteredArticleIds := clusters.map (fun c => c.2.map (·.id))
  let clusteredSet := clusteredArticleIds.flatten
  let unclusteredIds :=
    (articles.filter (fun a => !(clusteredSet.contains a.id))).map (·.id)
  (clusteredArticleIds, unclusteredIds)

/-! ## Claim C3: union-find state invariants -/
/-- The parent map is closed: every stored parent is itself a tracked id. -/
def ParentClosed (p : List (String × String)) : Prop :=
  ∀ e ∈ p, e.2 ∈ mkeys p

end WebClustering

/-- A concrete two-article input batch for the clustering pipeline. -/
def demoWebArticles : List WebClustering.WebArticle :=
  [⟨"w1", "alpha beta gamma", none⟩, ⟨"w2", "delta epsilon zeta", none⟩]

/-! ## Entity and keyword extraction (`story-aggregator.ts`)

JavaScript's stable `Array.prototype.sort(comparator)` is embedded as a
stable insertion sort: an element is inserted after every element the
comparator orders strictly before it, so ties keep their original order. -/
/-- Stable insertion: `before y x` means the comparator puts `y` strictly
before `x`. -/
def stableInsert {α : Type} (before : α → α → Bool) (x : α) :
    List α → List α
  | [] => [x]
  | y :: ys =>
    if before y x then y :: stableInsert before x ys else x :: y :: ys

/-- Stable sort by a strict comparator (the JS `sort` of the source). -/
def stableSort {α : Type} (before : α → α → Bool) : List α → List α
  | [] => []
  | x :: xs => stableInsert before x (stableSort before xs)

/-- An ECMAScript word character, `[A-Za-z0-9_]` (all embedded text is
ASCII). -/
def jsWordChar (c : Char) : Bool := c.isAlphanum || c = '_'

/-- Whether the head of the character list is a word character (the `\b`
check at the end of a match). -/
def headWordChar : List Char → Bool
  | [] => false
  | c :: _ => jsWordChar c

/-- The greedy `(?:\s+[A-Z][a-z]+)*` tail of the entity pattern: consume
whitespace-separated capitalized words while the trailing `\b` holds; a
repetition whose final `\b` fails is dropped (the regex backtracks to the
previous repetition, whose boundary is the whitespace). -/
def parseCapExts (fuel : Nat) (cs : List Char) : List Char × List Char :=
  match fuel with
  | 0 => ([], cs)
  | fuel + 1 =>
    let ws := cs.takeWhile (fun c => c.isWhitespace)
    if ws.isEmpty then ([], cs)
    else
      match cs.drop ws.length with
      | [] => ([], cs)
      | u :: rest2 =>
        if u.isUpper then
          let lows2 := rest2.takeWhile (fun c => c.isLower)
          if lows2.isEmpty then ([], cs)
          else
            let after2 := rest2.drop lows2.length
            if headWordChar after2 then ([], cs)
            else
              let more := parseCapExts fuel after2
              (ws ++ u :: lows2 ++ more.1, more.2)
        else ([], cs)

/-- One attempted match of `[A-Z][a-z]+(?:\s+[A-Z][a-z]+)*\b` at the head of
the list: the matched characters and the remaining input, or `none`. -/
def parseCapRun (cs : List Char) : Option (List Char × List Char) :=
  match cs with
  | [] => none
  | c :: rest =>
    if c.isUpper then
      let lows := rest.takeWhile (fun c => c.isLower)
      if lows.isEmpty then none
      else
        let after := rest.drop lows.length
        if headWordChar after then none
        else
          let exts := parseCapExts after.length after
          some (c :: lows ++ exts.1, exts.2)
    else none

/-- The global scan of the proper-noun pattern
`/(?<![.!?]\s)(?<!\n)\b([A-Z][a-z]+(?:\s+[A-Z][a-z]+)*)\b/g`: `p1`/`p2` are
the one and two characters before the current position (for the `\b` and the
two lookbehinds); after a match the scan resumes past it. -/
def scanCapRuns (fuel : Nat) (cs : List Char) (p1 p2 : Option Char) :
    List String :=
  match fuel, cs with
  | 0, _ => []
  | _, [] => []
  | fuel + 1, c :: rest =>
    let boundaryOk :=
      match p1 with
      | none => true
      | some ch => !(jsWordChar ch)
    let lookbehind1 :=
      match p2, p1 with
      | some ch2, some ch1 =>
        !((ch2 = '.' || ch2 = '!' || ch2 = '?') && ch1.isWhitespace)
      | _, _ => true
    let lookbehind2 :=
      match p1 with
      | some ch1 => !(ch1 = '\n')
      | none => true
    if boundaryOk && lookbehind1 && lookbehind2 then
      match parseCapRun (c :: rest) with
      | some (matched, after) =>
        String.mk matched ::
          scanCapRuns fuel after (matched.reverse.head?)
            (matched.reverse.drop 1).head?
      | none => scanCapRuns fuel rest (some c) p1
    else scanCapRuns fuel rest (some c) p1

/-- The `skipWords` list of `extractEntities`. -/
def entitySkipWords : List String :=
  ["The", "This", "That", "These", "Those", "What", "When", "Where",
   "Who", "Why", "How"]

/-- `endsWith`, computed on character lists. -/
def strEndsWith (text suffix : String) : Bool :=
  suffix.toList.isSuffixOf text.toList

/-- A prefix match followed by a word boundary (`/^word\b/`). -/
def strStartsWithWord (text w : String) : Bool :=
  w.toList.isPrefixOf text.toList && !headWordChar (text.toList.drop w.length)

/-- `guessEntityType`: weak suffix/prefix heuristics. -/
def guessEntityType (text : String) : EntityType :=
  let locationSuffixes := ["City", "County", "State", "Street", "Avenue",
    "Road"]
  let orgSuffixes := ["Inc", "Corp", "LLC", "Company", "Organization",
    "Foundation", "Institute"]
  if locationSuffixes.any (fun s => strEndsWith text s) then .location
  else if orgSuffixes.any (fun s => strEndsWith text s) then .organization
  else if ["President", "Senator", "Governor", "Mayor", "Dr", "Mr", "Mrs",
      "Ms"].any (fun w => strStartsWithWord text w) then .person
  else .other

/-- The deduplicating fold of `extractEntities`: case-insensitive key, first
casing and type kept, counts merged, insertion order preserved. -/
def entityFold (found : List String) : List (String × ExtractedEntity) :=
  found.foldl
    (fun m t =>
      if t.length < 2 then m
      else if entitySkipWords.contains t then m
      else
        let key := WebClustering.asciiLower t
        match mget m key with
        | some e => mset m key { e with count := e.count + 1 }
        | none => mset m key ⟨t, guessEntityType t, 1⟩)
    []

/-- `extractEntities`: pattern-matched proper nouns, deduplicated, sorted by
count (stable, descending) and truncated to the top 20. -/
def extractEntities (text : String) : List ExtractedEntity :=
  let found := scanCapRuns text.toList.length text.toList none none
  (stableSort (fun a b => b.count < a.count)
    ((entityFold found).map (·.2))).take 20

/-- The stop-word list of `extractKeywords`, in source order. -/
def keywordStopWords : List String := [
  "the", "a", "an", "and", "or", "but", "in", "on", "at", "to", "for",
  "of", "with", "by", "from", "as", "is", "was", "are", "were", "been",
  "be", "have", "has", "had", "do", "does", "did", "will", "would", "could",
  "should", "may", "might", "must", "shall", "can", "this", "that", "these",
  "those", "i", "you", "he", "she", "it", "we", "they", "what", "which",
  "who", "whom", "whose", "when", "where", "why", "how", "all", "each",
  "every", "both", "few", "more", "most", "other", "some", "such", "no",
  "nor", "not", "only", "own", "same", "so", "than", "too", "very", "just",
  "also", "now", "new", "said", "says", "according", "about", "after",
  "before", "between", "into", "through", "during", "under", "again",
  "further", "then", "once", "here", "there", "out", "up", "down"]

/-- The normalization of `extractKeywords`: lowercase, replace every
non-word character by a space, then split on whitespace (the collapse/trim
steps of the source only remove empty fragments, which the frequency loop
drops anyway as zero-length words). -/
def normalizeWords (text : String) : List String :=
  WebClustering.splitNonWord
    ((WebClustering.asciiLower text).toList.map
      (fun c => if jsWordChar c then c else ' ')) []

/-- The frequency fold of `extractKeywords` (insertion-ordered map). -/
def keywordFreq (words : List String) : List (String × Nat) :=
  words.foldl
    (fun freq word =>
      if word.length < 3 then freq
      else if keywordStopWords.contains word then freq
      else if WebClustering.isPureNumeric word then freq
      else mset freq word ((mget freq word).getD 0 + 1))
    []

/-- `extractKeywords`: top `maxKeywords` normalized tokens by frequency
(stable sort, descending; the source's default `maxKeywords` is 10). -/
def extractKeywords (text : String) (maxKeywords : Nat) : List String :=
  ((stableSort (fun a b => b.2 < a.2)
    (keywordFreq (normalizeWords text))).take maxKeywords).map (·.1)

/-- JavaScript `String.prototype.split(/\s+/)`: fields between maximal
whitespace runs, including an empty field at either end when the string
starts or ends with whitespace (and `[""]` for the empty string). -/
def jsSplitWSAux (fuel : Nat) (cs : List Char) (cur : List Char) :
    List String :=
  match fuel, cs with
  | _, [] => [String.mk cur.reverse]
  | 0, _ => [String.mk cur.reverse]
  | fuel + 1, c :: rest =>
    if c.isWhitespace then
      String.mk cur.reverse ::
        jsSplitWSAux fuel (rest.dropWhile (fun c => c.isWhitespace)) []
    else jsSplitWSAux fuel rest (c :: cur)

/-- `title.toLowerCase().split(/\s+/)`. -/
def jsSplitWS (s : String) : List String :=
  jsSplitWSAux s.toList.length s.toList []

/-- `calculateSimilarity`: the weighted combination of entity overlap,
keyword overlap and title-word overlap (each a Jaccard ratio over the
distinct elements, `0` on an empty union).  JS `Set`s are embedded as
deduplicated lists (only membership and cardinality are used). -/
def calculateSimilarity (a b : NewsArticle) : ℚ :=
  let aEntities := if a.entities.length > 0 then a.entities
    else extractEntities (a.title ++ " " ++ a.summary)
  let bEntities := if b.entities.length > 0 then b.entities
    else extractEntities (b.title ++ " " ++ b.summary)
  let aKeywords := extractKeywords (a.title ++ " " ++ a.summary) 10
  let bKeywords := extractKeywords (b.title ++ " " ++ b.summary) 10
  let aEntityTexts := (aEntities.map
    (fun e => WebClustering.asciiLower e.text)).dedup
  let bEntityTexts := (bEntities.map
    (fun e => WebClustering.asciiLower e.text)).dedup
  let entityIntersection :=
    aEntityTexts.filter (fun x => bEntityTexts.contains x)
  let entityUnion := (aEntityTexts ++ bEntityTexts).dedup
  let entitySimilarity : ℚ :=
    if entityUnion.length > 0 then
      (entityIntersection.length : ℚ) / entityUnion.length
    else 0
  let aKeywordSet := aKeywords.dedup
  let bKeywordSet := bKeywords.dedup
  let keywordIntersection :=
    aKeywordSet.filter (fun x => bKeywordSet.contains x)
  let keywordUnion := (aKeywordSet ++ bKeywordSet).dedup
  let keywordSimilarity : ℚ :=
    if keywordUnion.length > 0 then
      (keywordIntersection.length : ℚ) / keywordUnion.length
    else 0
  let aTitleWords := (jsSplitWS (WebClustering.asciiLower a.title)).dedup
  let bTitleWords := (jsSplitWS (WebClustering.asciiLower b.title)).dedup
  let titleIntersection :=
    aTitleWords.filter (fun x => bTitleWords.contains x)
  let titleUnion := (aTitleWords ++ bTitleWords).dedup
  let titleSimilarity : ℚ :=
    if titleUnion.length > 0 then
      (titleIntersection.length : ℚ) / titleUnion.length
    else 0
  entitySimilarity * 0.4 + keywordSimilarity * 0.35 + titleSimilarity * 0.25

namespace StoryAggregator

/-- One candidate step of the greedy clustering's inner loop: skip already
assigned candidates and candidates from the seed's own source; absorb a
candidate whose similarity to the seed reaches the threshold. -/
def greedyCandidateStep (config : AggregationConfig) (article : NewsArticle)
    (ca : List NewsArticle × List String) (candidate : NewsArticle) :
    List NewsArticle × List String :=
  if ca.2.contains candidate.id then ca
  else if candidate.sourceId = article.sourceId then ca
  else if config.similarityThreshold ≤ calculateSimilarity article candidate
  then (ca.1 ++ [candidate], ca.2 ++ [candidate.id])
  else ca

/-- One seed step of the greedy clustering's outer loop: an unassigned
article seeds a new cluster, absorbs similar unassigned candidates from
other sources, and the cluster is kept when it reaches
`minArticlesPerStory` (absorbed candidates stay assigned either way). -/
def greedySeedStep (config : AggregationConfig)
    (sorted : List NewsArticle)
    (acc : List (List NewsArticle) × List String) (article : NewsArticle) :
    List (List NewsArticle) × List String :=
  if acc.2.contains article.id then acc
  else
    let inner := sorted.foldl (greedyCandidateStep config article)
      ([article], acc.2 ++ [article.id])
    if config.minArticlesPerStory ≤ inner.1.length then
      (acc.1 ++ [inner.1], inner.2)
    else (acc.1, inner.2)

/-- `StoryAggregator.clusterArticles`: the greedy clustering over the
articles sorted by publication time, newest first (the JS comparator
`b.publishedAt - a.publishedAt` on a stable sort). -/
def clusterArticles (config : AggregationConfig)
    (articles : List NewsArticle) : List (List NewsArticle) :=
  let sorted := stableSort (fun a b => b.publishedAt < a.publishedAt)
    articles
  (sorted.foldl (greedySeedStep config sorted) ([], [])).1

end StoryAggregator

/-- The source defaults of `StoryAggregator`: threshold 0.3, 48-hour window,
minimum 2 articles per story. -/
def defaultAggregationConfig : AggregationConfig := ⟨0.3, 48, 2⟩

/-- Newest article of the same-source batch, from source `s0`. -/
def demoArtA : NewsArticle :=
  ⟨"x1", "alpha beta gamma delta", "s0", 3, "", none, [⟨"Alpha", .other, 1⟩]⟩

/-- Second article, from source `s1`, identical text. -/
def demoArtB : NewsArticle :=
  ⟨"x2", "alpha beta gamma delta", "s1", 2, "", none, [⟨"Alpha", .other, 1⟩]⟩

/-- Third article, also from source `s1`, identical text. -/
def demoArtC : NewsArticle :=
  ⟨"x3", "alpha beta gamma delta", "s1", 1, "", none, [⟨"Alpha", .other, 1⟩]⟩

/-- A batch whose second and third articles share source `s1`. -/
def demoSameSource : List NewsArticle := [demoArtA, demoArtB, demoArtC]

namespace BiasAnalyzer

/-! ## Bias analyzer (`src/core/bias/analyzer.ts`)

Shallow embedding of the `BiasAnalyzer` class.  JS regexes over the
lowercased text are embedded as explicit left-to-right scanners: each
regex is a list of literal alternatives (alternation order preserved;
`sources?` is expanded with the greedy `s` branch first), matched
non-overlapping from the left exactly as `String.match` with the `g`
flag; `\b` is the usual word-boundary test against `[A-Za-z0-9_]`. -/
/-- `LOADED_LANGUAGE.left`. -/
def LOADED_LEFT : List String := [
  "radical right", "far-right", "extremist", "racist", "bigot", "fascist",
  "authoritarian", "hateful", "divisive", "dangerous", "misinformation",
  "conspiracy theory", "climate denier", "assault weapon", "anti-choice",
  "dark money", "voter suppression", "systemic racism", "white supremacy"]

/-- `LOADED_LANGUAGE.right`. -/
def LOADED_RIGHT : List String := [
  "radical left", "far-left", "socialist", "communist", "woke",
  "liberal elite", "mainstream media", "fake news", "deep state",
  "open borders", "defund", "cancel culture", "big government",
  "coastal elite", "pro-abortion", "illegal alien", "indoctrination",
  "activist judge", "weaponized"]

/-- `LOADED_LANGUAGE.sensational`. -/
def LOADED_SENSATIONAL : List String := [
  "shocking", "explosive", "bombshell", "devastating", "outrage", "fury",
  "slam", "blast", "rip", "destroy", "eviscerate", "annihilate", "epic",
  "unbelievable", "incredible", "breaking", "urgent", "must-see",
  "you won\x27t believe", "what they don\x27t want you to know"]

/-- `OPINION_INDICATORS`: the five `\b(...)\b` alternation regexes, each as
its list of alternatives in source order. -/
def OPINION_INDICATORS : List (List String) := [
  ["clearly", "obviously", "undoubtedly", "certainly"],
  ["should", "must", "need to", "ought to"],
  ["good", "bad", "wrong", "right", "evil", "great", "terrible", "horrible"],
  ["unfortunately", "thankfully", "hopefully", "surprisingly"],
  ["critics say", "supporters claim", "experts warn", "some argue"]]

/-- `WEAK_ATTRIBUTION`: the six unanchored alternation regexes, expanded to
literal alternatives in backtracking order (greedy optional `s` first). -/
def WEAK_ATTRIBUTION : List (List String) := [
  ["sources say", "sources claim", "sources suggest", "sources indicate",
   "source say", "source claim", "source suggest", "source indicate"],
  ["according to sources", "according to reports", "according to officials"],
  ["it is believed", "it is thought", "it is reported", "it is said"],
  ["some say", "some believe", "some think", "some argue"],
  ["many people", "many experts", "many critics"],
  ["a source close to", "a source familiar with"]]

/-- JS regex word character (`\w` and the `\b` boundary test). -/
def isJsWordChar (c : Char) : Bool :=
  c.isAlphanum || c == '_'

/-- First alternative matching at the current position (`prev` is the
character before the position), with `\b` checks at both ends when
`bounded`.  Every alternative starts and ends with a word character. -/
def altAt (alts : List (List Char)) (bounded : Bool) (prev : Option Char)
    (cs : List Char) : Option (List Char) :=
  alts.find? (fun a =>
    a.isPrefixOf cs &&
      (!bounded ||
        ((match prev with
          | none => true
          | some p => !isJsWordChar p) &&
         (match cs.drop a.length with
          | [] => true
          | d :: _ => !isJsWordChar d))))

/-- Left-to-right non-overlapping scan, as `text.match(re, "g")`: returns
the number of matches and the first matched string.  Fuel-based; one
character (or a whole match) is consumed per step, so `cs.length` fuel
suffices. -/
def scanOcc (alts : List (List Char)) (bounded : Bool) :
    Nat → Option Char → List Char → Nat × Option (List Char)
  | 0, _, _ => (0, none)
  | _ + 1, _, [] => (0, none)
  | fuel + 1, prev, c :: rest =>
    match altAt alts bounded prev (c :: rest) with
    | some a =>
      let r := scanOcc alts bounded fuel a.getLast? ((c :: rest).drop a.length)
      (r.1 + 1, some a)
    | none => scanOcc alts bounded fuel (some c) rest

/-- Match count and first match of an alternation regex against `text`. -/
def countOcc (alts : List String) (bounded : Bool) (text : String) :
    Nat × Option String :=
  let cs := text.toList
  let r := scanOcc (alts.map String.toList) bounded cs.length none cs
  (r.1, r.2.map (fun l => String.mk l))

/-- `BiasAnalyzer.detectPoliticalLean`: returns the score together with the
evidence entries it pushes (left terms in list order, then right terms). -/
def detectPoliticalLean (cfg : AnalysisConfig) (text : String) :
    ℚ × List BiasEvidence :=
  let leftScore := (LOADED_LEFT.map (fun t => (countOcc [t] false text).1)).sum
  let rightScore := (LOADED_RIGHT.map (fun t => (countOcc [t] false text).1)).sum
  let evL := LOADED_LEFT.flatMap (fun t =>
    if (countOcc [t] false text).1 > 0 ∧ cfg.includeEvidence then
      [⟨t, "politicalLean", "Left-leaning framing: \"" ++ t ++ "\""⟩]
    else [])
  let evR := LOADED_RIGHT.flatMap (fun t =>
    if (countOcc [t] false text).1 > 0 ∧ cfg.includeEvidence then
      [⟨t, "politicalLean", "Right-leaning framing: \"" ++ t ++ "\""⟩]
    else [])
  let total := leftScore + rightScore
  (if total = 0 then 0
   else ((rightScore : ℚ) - (leftScore : ℚ)) / (total : ℚ), evL ++ evR)

/-- `String.toUpperCase` (ASCII, as for the registry data). -/
def asciiUpper (s : String) : String :=
  String.mk (s.toList.map Char.toUpper)

/-- Test of `/\d+ (things|reasons|ways)/`: some digit directly followed by
a space and one of the three words. -/
def hasDigitCountPattern : List Char → Bool
  | [] => false
  | c :: rest =>
    (c.isDigit &&
      ([" things", " reasons", " ways"].map String.toList).any
        (fun s => s.isPrefixOf rest)) ||
      hasDigitCountPattern rest

/-- Substring test for an alternation: does any alternative occur? -/
def hasAnySub (alts : List (List Char)) : List Char → Bool
  | [] => false
  | c :: rest =>
    alts.any (fun a => a.isPrefixOf (c :: rest)) || hasAnySub alts rest

/-- `BiasAnalyzer.detectSensationalism`: word-bounded sensational terms at
0.5 each, plus the five title clickbait checks, capped at `score / 10`. -/
def detectSensationalism (cfg : AnalysisConfig) (text title : String) :
    ℚ × List BiasEvidence :=
  let wordScore : ℚ :=
    (LOADED_SENSATIONAL.map
      (fun t => ((countOcc [t] true text).1 : ℚ) * (1 / 2))).sum
  let ev := LOADED_SENSATIONAL.flatMap (fun t =>
    if cfg.includeEvidence ∧ (countOcc [t] true text).1 > 0 then
      [⟨t, "sensationalism", "Sensational language: \"" ++ t ++ "\""⟩]
    else [])
  let titleLower := WebClustering.asciiLower title
  let score := wordScore +
    (if '!' ∈ titleLower.toList then (1 : ℚ) else 0) +
    (if '?' ∈ titleLower.toList ∧ titleLower.length < 50 then (1 / 2 : ℚ)
     else 0) +
    (if hasDigitCountPattern titleLower.toList then (1 : ℚ) else 0) +
    (if hasAnySub
        (["you won\x27t", "you need to", "you should"].map String.toList)
        titleLower.toList then (3 / 2 : ℚ) else 0) +
    (if title = asciiUpper title then (2 : ℚ) else 0)
  (min 1 (score / 10), ev)

/-- `BiasAnalyzer.detectOpinionMixing`: 0.5 per match of each opinion
pattern, capped by `max 5 (text.length / 500)`. -/
def detectOpinionMixing (cfg : AnalysisConfig) (text : String) :
    ℚ × List BiasEvidence :=
  let results := OPINION_INDICATORS.map (fun p => countOcc p true text)
  let score : ℚ := (results.map (fun r => (r.1 : ℚ) * (1 / 2))).sum
  let ev := results.flatMap (fun r =>
    if cfg.includeEvidence ∧ r.1 > 0 then
      [⟨r.2.getD "", "opinionMixing",
        "Opinion indicator: \"" ++ r.2.getD "" ++ "\""⟩]
    else [])
  let maxScore := max (5 : ℚ) ((text.length : ℚ) / 500)
  (min 1 (score / maxScore), ev)

/-- `BiasAnalyzer.detectTransparency`: 1 per match of each weak-attribution
pattern, capped at `score / 5`. -/
def detectTransparency (cfg : AnalysisConfig) (text : String) :
    ℚ × List BiasEvidence :=
  let results := WEAK_ATTRIBUTION.map (fun p => countOcc p false text)
  let score : ℚ := (results.map (fun r => (r.1 : ℚ))).sum
  let ev := results.flatMap (fun r =>
    if cfg.includeEvidence ∧ r.1 > 0 then
      [⟨r.2.getD "", "transparency",
        "Weak attribution: \"" ++ r.2.getD "" ++ "\""⟩]
    else [])
  (min 1 (score / 5), ev)

/-- `BiasAnalyzer.leanToLabel`. -/
def leanToLabel (lean : ℚ) : String :=
  if lean ≤ -0.6 then "Far Left"
  else if lean ≤ -0.3 then "Left"
  else if lean ≤ -0.1 then "Lean Left"
  else if lean ≥ 0.6 then "Far Right"
  else if lean ≥ 0.3 then "Right"
  else if lean ≥ 0.1 then "Lean Right"
  else "Center"

/-- `BiasAnalyzer.generateSummary`. -/
def generateSummary (indicators : BiasIndicators) : String :=
  let parts : List String :=
    ["Political lean: " ++ leanToLabel indicators.politicalLean] ++
    (if indicators.sensationalism > 0.6 then ["High sensationalism detected"]
     else if indicators.sensationalism > 0.3 then ["Moderate sensationalism"]
     else []) ++
    (if indicators.opinionMixing > 0.5 then ["Opinion mixed with news"]
     else []) ++
    (if indicators.transparency < 0.5 then ["Weak source attribution"]
     else [])
  String.intercalate ". " parts ++ "."

/-- `Math.round`. -/
def jsRound (q : ℚ) : ℤ :=
  ⌊q + 1 / 2⌋

/-- `BiasAnalyzer.createUnknownAnalysis`. -/
def createUnknownAnalysis (reason : String) : BiasAnalysis :=
  ⟨⟨0, 0.5, 0.5, 0.5, 0.5⟩, 0.1, "Unable to analyze: " ++ reason, [],
   .staticM⟩

/-- `BiasAnalyzer.analyzeStatic` (reads no configuration). -/
def analyzeStatic (article : NewsArticle) (source : Option NewsSource) :
    BiasAnalysis :=
  match source with
  | none => createUnknownAnalysis "Source not found in registry"
  | some s =>
    ⟨s.knownBias, 0.6,
     "Based on " ++ s.name ++
       "\x27s historical bias profile. Political lean: " ++
       leanToLabel s.knownBias.politicalLean ++ ". Reliability: " ++
       toString (jsRound (s.reliabilityScore * 100)) ++ "%.",
     [], .staticM⟩

/-- `BiasAnalyzer.analyzeHeuristic`: lowercased `title summary content`
text, the four detectors (evidence in call order), source factual accuracy
with `0.7` default, and length-based confidence. -/
def analyzeHeuristic (cfg : AnalysisConfig) (article : NewsArticle)
    (source : Option NewsSource) : BiasAnalysis :=
  let text := WebClustering.asciiLower
    (article.title ++ " " ++ article.summary ++ " " ++ article.content.getD "")
  let pl := detectPoliticalLean cfg text
  let sens := detectSensationalism cfg text article.title
  let op := detectOpinionMixing cfg text
  let tr := detectTransparency cfg text
  let factualAccuracy :=
    (source.map (fun s => s.knownBias.factualAccuracy)).getD 0.7
  let indicators : BiasIndicators :=
    ⟨pl.1, sens.1, factualAccuracy, op.1, 1 - tr.1⟩
  let confidence := min 0.9 (0.5 + ((text.length : ℚ) / 5000) * 0.4)
  ⟨indicators, confidence, generateSummary indicators,
   if cfg.includeEvidence then pl.2 ++ sens.2 ++ op.2 ++ tr.2 else [],
   .heuristic⟩

/-- `article.content && article.content.length > 200` (empty content is
falsy in JS, and `0 > 200` fails anyway). -/
def hasContentB (article : NewsArticle) : Bool :=
  match article.content with
  | some c => decide (c.length > 200)
  | none => false

/-- `staticWeight` inside `analyzeCombined`. -/
def staticWeightOf (article : NewsArticle) : ℚ :=
  if hasContentB article then 0.3 else 0.7

/-- `BiasAnalyzer.analyzeCombined`: componentwise blend of the static and
heuristic analyses, weighted by content availability. -/
def analyzeCombined (cfg : AnalysisConfig) (article : NewsArticle)
    (source : Option NewsSource) : BiasAnalysis :=
  let sa := analyzeStatic article source
  let ha := analyzeHeuristic cfg article source
  let staticWeight := staticWeightOf article
  let heuristicWeight := 1 - staticWeight
  let ind : BiasIndicators :=
    ⟨ sa.indicators.politicalLean * staticWeight +
       ha.indicators.politicalLean * heuristicWeight,
     sa.indicators.sensationalism * staticWeight +
       ha.indicators.sensationalism * heuristicWeight,
     sa.indicators.factualAccuracy * staticWeight +
       ha.indicators.factualAccuracy * heuristicWeight,
     sa.indicators.opinionMixing * staticWeight +
       ha.indicators.opinionMixing * heuristicWeight,
     sa.indicators.transparency * staticWeight +
       ha.indicators.transparency * heuristicWeight⟩
  ⟨ind,
   sa.confidence * staticWeight + ha.confidence * heuristicWeight,
   generateSummary ind, ha.evidence, .combined⟩

/-- `BiasAnalyzer.analyze`: source lookup and method dispatch; the `llm`
branch throws. -/
def analyze (cfg : AnalysisConfig) (article : NewsArticle) :
    Except String BiasAnalysis :=
  let source := getSource article.sourceId
  match cfg.method with
  | .staticM => .ok (analyzeStatic article source)
  | .heuristic => .ok (analyzeHeuristic cfg article source)
  | .llm => .error "LLM analysis not implemented yet"
  | .combined => .ok (analyzeCombined cfg article source)

/-- The documented ranges of the five indicators: `politicalLean` in
`[-1, 1]`, the others in `[0, 1]`. -/
def boundedIndicators (b : BiasIndicators) : Prop :=
  -1 ≤ b.politicalLean ∧ b.politicalLean ≤ 1 ∧
  0 ≤ b.sensationalism ∧ b.sensationalism ≤ 1 ∧
  0 ≤ b.factualAccuracy ∧ b.factualAccuracy ≤ 1 ∧
  0 ≤ b.opinionMixing ∧ b.opinionMixing ≤ 1 ∧
  0 ≤ b.transparency ∧ b.transparency ≤ 1

end BiasAnalyzer

/-- An article whose `sourceId` is absent from the registry. -/
def demoUnknownArticle : NewsArticle :=
  ⟨"u1", "Hello World", "nosuch-source", 0, "", none, []⟩

/-- Article with the sensational demo title. -/
def demoSensArticle : NewsArticle :=
  ⟨"y1", "YOU WON\x27T BELIEVE WHAT HAPPENED!!!", "ap", 0, "", none, []⟩

/-- Otherwise-identical article with a dry title. -/
def demoPlainArticle : NewsArticle :=
  ⟨"y2", "Senate Passes Budget Bill", "ap", 0, "", none, []⟩

@[simp]
theorem mkeys_nil {α β : Type} : mkeys ([] : List (α × β)) = [] := rfl

@[simp]
theorem mkeys_cons {α β : Type} (k : α) (v : β) (m : List (α × β)) :
    mkeys ((k, v) :: m) = k :: mkeys m := rfl

theorem mget_mset_self {α β : Type} [DecidableEq α] (m : List (α × β)) (k : α)
    (v : β) : mget (mset m k v) k = some v := by
  induction m with
  | nil => simp [mget, mset]
  | cons hd tl ih =>
    obtain ⟨k', v'⟩ := hd
    by_cases h : k' = k <;> simp [mget, mset, h, ih]

theorem mget_mset_ne {α β : Type} [DecidableEq α] (m : List (α × β)) {k k' : α}
    (v : β) (h : k ≠ k') : mget (mset m k v) k' = mget m k' := by
  induction m with
  | nil => simp [mget, mset, h]
  | cons hd tl ih =>
    obtain ⟨k₀, v₀⟩ := hd
    by_cases h0 : k₀ = k
    · subst h0
      simp [mget, mset, h]
    · simp only [mset, if_neg h0]
      by_cases h1 : k₀ = k' <;> simp [mget, h1, ih]

theorem mkeys_mset_of_mem {α β : Type} [DecidableEq α] (m : List (α × β))
    (k : α) (v : β) (h : k ∈ mkeys m) : mkeys (mset m k v) = mkeys m := by
  induction m with
  | nil => simp at h
  | cons hd tl ih =>
    obtain ⟨k', v'⟩ := hd
    by_cases h0 : k' = k
    · simp [mset, h0]
    · have h' : k ∈ mkeys tl := by
        rcases (by simpa using h : k = k' ∨ k ∈ mkeys tl) with h | h
        · exact absurd h.symm h0
        · exact h
      simp [mset, h0, ih h']

theorem mkeys_mset_of_not_mem {α β : Type} [DecidableEq α] (m : List (α × β))
    (k : α) (v : β) (h : k ∉ mkeys m) : mkeys (mset m k v) = mkeys m ++ [k] := by
  induction m with
  | nil => simp [mset]
  | cons hd tl ih =>
    obtain ⟨k', v'⟩ := hd
    have h0 : k' ≠ k := by
      intro hk
      exact h (by simp [hk])
    have h' : k ∉ mkeys tl := by
      intro hk
      exact h (by simp [hk])
    simp [mset, h0, ih h']

theorem mget_eq_none_of_not_mem {α β : Type} [DecidableEq α]
    (m : List (α × β)) {k : α} (h : k ∉ mkeys m) : mget m k = none := by
  induction m with
  | nil => rfl
  | cons hd tl ih =>
    obtain ⟨k', v'⟩ := hd
    have h0 : k' ≠ k := fun hk => h (by simp [hk])
    have h' : k ∉ mkeys tl := fun hk => h (by simp [hk])
    simp [mget, h0, ih h']

theorem mget_isSome_of_mem {α β : Type} [DecidableEq α]
    (m : List (α × β)) {k : α} (h : k ∈ mkeys m) : (mget m k).isSome := by
  induction m with
  | nil => simp at h
  | cons hd tl ih =>
    obtain ⟨k', v'⟩ := hd
    by_cases h0 : k' = k
    · simp [mget, h0]
    · have h' : k ∈ mkeys tl := by
        rcases (by simpa using h : k = k' ∨ k ∈ mkeys tl) with h | h
        · exact absurd h.symm h0
        · exact h
      simp [mget, h0, ih h']

theorem coverageFold_go (articles : List NewsArticle)
    (acc : LeanDistribution × List BiasIndicators) :
    (articles.foldl StoryAggregator.coverageStep acc).1.left +
        (articles.foldl StoryAggregator.coverageStep acc).1.center +
        (articles.foldl StoryAggregator.coverageStep acc).1.right =
      acc.1.left + acc.1.center + acc.1.right +
        (articles.filter (fun a => (getSource a.sourceId).isSome)).length ∧
      (articles.foldl StoryAggregator.coverageStep acc).2 =
        acc.2 ++ resolvedBias articles := by
  induction articles generalizing acc with
  | nil => simp [resolvedBias]
  | cons a rest ih =>
    cases hs : getSource a.sourceId with
    | none =>
      have hstep : StoryAggregator.coverageStep acc a = acc := by
        simp [StoryAggregator.coverageStep, hs]
      have h := ih acc
      constructor
      · simpa [List.foldl_cons, hstep, List.filter_cons, hs] using h.1
      · simpa [List.foldl_cons, hstep, resolvedBias, List.filterMap_cons, hs]
          using h.2
    | some s =>
      have h := ih (StoryAggregator.coverageStep acc a)
      have hsum : (StoryAggregator.coverageStep acc a).1.left +
          (StoryAggregator.coverageStep acc a).1.center +
          (StoryAggregator.coverageStep acc a).1.right =
          acc.1.left + acc.1.center + acc.1.right + 1 := by
        simp only [StoryAggregator.coverageStep, hs]
        split_ifs <;> simp <;> omega
      have hsnd : (StoryAggregator.coverageStep acc a).2 =
          acc.2 ++ [s.knownBias] := by
        simp [StoryAggregator.coverageStep, hs]
      constructor
      · rw [List.foldl_cons, h.1, hsum, List.filter_cons]
        simp only [hs, Option.isSome_some, if_true, List.length_cons]
        omega
      · rw [List.foldl_cons, h.2, hsnd]
        simp [resolvedBias, List.filterMap_cons, hs]

theorem coverageFold_sum (articles : List NewsArticle) :
    (StoryAggregator.coverageFold articles).1.left +
        (StoryAggregator.coverageFold articles).1.center +
        (StoryAggregator.coverageFold articles).1.right =
      (articles.filter (fun a => (getSource a.sourceId).isSome)).length := by
  have h := (coverageFold_go articles (⟨0, 0, 0⟩, [])).1
  simpa [StoryAggregator.coverageFold] using h

theorem coverageFold_snd (articles : List NewsArticle) :
    (StoryAggregator.coverageFold articles).2 = resolvedBias articles := by
  have h := (coverageFold_go articles (⟨0, 0, 0⟩, [])).2
  simpa [StoryAggregator.coverageFold] using h

theorem analyzeCoverage_sourceCount (articles : List NewsArticle) :
    (StoryAggregator.analyzeCoverage articles).sourceCount =
      ((articles.map (·.sourceId)).dedup).length := rfl

theorem analyzeCoverage_leanDistribution (articles : List NewsArticle) :
    (StoryAggregator.analyzeCoverage articles).leanDistribution =
      (StoryAggregator.coverageFold articles).1 := rfl

theorem analyzeCoverage_averageBias (articles : List NewsArticle) :
    (StoryAggregator.analyzeCoverage articles).averageBias =
      ⟨StoryAggregator.average
          ((StoryAggregator.coverageFold articles).2.map (fun b => b.politicalLean)),
        StoryAggregator.average
          ((StoryAggregator.coverageFold articles).2.map (·.sensationalism)),
        StoryAggregator.average
          ((StoryAggregator.coverageFold articles).2.map (·.factualAccuracy)),
        StoryAggregator.average
          ((StoryAggregator.coverageFold articles).2.map (·.opinionMixing)),
        StoryAggregator.average
          ((StoryAggregator.coverageFold articles).2.map (·.transparency))⟩ := rfl

theorem analyzeCoverage_coverageBalance (articles : List NewsArticle) :
    (StoryAggregator.analyzeCoverage articles).coverageBalance =
      (if ((articles.map (·.sourceId)).dedup).length < 3 then
          CoverageBalance.limited
        else if (StoryAggregator.coverageFold articles).1.left >
            (StoryAggregator.coverageFold articles).1.right * 2 then
          CoverageBalance.leftHeavy
        else if (StoryAggregator.coverageFold articles).1.right >
            (StoryAggregator.coverageFold articles).1.left * 2 then
          CoverageBalance.rightHeavy
        else CoverageBalance.balanced) := rfl

/-- C1: for every cluster of member articles, `analyzeCoverage` returns the
`limited` verdict exactly when the distinct source count is below 3;
otherwise `left-heavy` exactly when the left bucket strictly exceeds twice
the right bucket, `right-heavy` exactly when the right bucket strictly
exceeds twice the left bucket, and `balanced` otherwise. -/
theorem C1_coverage_balance_verdict (articles : List NewsArticle) :
    ((StoryAggregator.analyzeCoverage articles).coverageBalance =
        CoverageBalance.limited ↔
      (StoryAggregator.analyzeCoverage articles).sourceCount < 3) ∧
    (3 ≤ (StoryAggregator.analyzeCoverage articles).sourceCount →
      (((StoryAggregator.analyzeCoverage articles).coverageBalance =
            CoverageBalance.leftHeavy ↔
          (StoryAggregator.analyzeCoverage articles).leanDistribution.left >
            (StoryAggregator.analyzeCoverage articles).leanDistribution.right
              * 2) ∧
        ((StoryAggregator.analyzeCoverage articles).coverageBalance =
            CoverageBalance.rightHeavy ↔
          (StoryAggregator.analyzeCoverage articles).leanDistribution.right >
            (StoryAggregator.analyzeCoverage articles).leanDistribution.left
              * 2) ∧
        ((StoryAggregator.analyzeCoverage articles).coverageBalance =
            CoverageBalance.balanced ↔
          ¬((StoryAggregator.analyzeCoverage articles).leanDistribution.left >
            (StoryAggregator.analyzeCoverage articles).leanDistribution.right
              * 2) ∧
          ¬((StoryAggregator.analyzeCoverage articles).leanDistribution.right >
            (StoryAggregator.analyzeCoverage articles).leanDistribution.left
              * 2)))) := by
  rw [analyzeCoverage_coverageBalance, analyzeCoverage_sourceCount,
    analyzeCoverage_leanDistribution]
  by_cases h3 : ((articles.map (·.sourceId)).dedup).length < 3
  · constructor
    · simp [h3]
    · intro h
      exact absurd h (by omega)
  · by_cases hL : (StoryAggregator.coverageFold articles).1.left >
        (StoryAggregator.coverageFold articles).1.right * 2
    · have hR' : ¬((StoryAggregator.coverageFold articles).1.right >
          (StoryAggregator.coverageFold articles).1.left * 2) := by omega
      simp [h3, hL, hR']
    · by_cases hR : (StoryAggregator.coverageFold articles).1.right >
          (StoryAggregator.coverageFold articles).1.left * 2
      · simp [h3, hL, hR]
      · simp [h3, hL, hR]

theorem C1_coverage_balance_verdict_witness :
    (StoryAggregator.analyzeCoverage demoLeftHeavy).coverageBalance =
        CoverageBalance.leftHeavy ∧
      (StoryAggregator.analyzeCoverage demoBalanced).coverageBalance =
        CoverageBalance.balanced :=
  ⟨((C1_coverage_balance_verdict demoLeftHeavy).2 (by decide)).1.mpr
      (by rw [analyzeCoverage_leanDistribution]
          norm_num +decide [demoLeftHeavy, StoryAggregator.coverageFold,
            StoryAggregator.coverageStep, getSource, ALL_SOURCES, List.find?]),
    ((C1_coverage_balance_verdict demoBalanced).2 (by decide)).2.2.mpr
      (by rw [analyzeCoverage_leanDistribution]
          norm_num +decide [demoBalanced, StoryAggregator.coverageFold,
            StoryAggregator.coverageStep, getSource, ALL_SOURCES, List.find?])⟩

/-- C10: members whose `sourceId` does not resolve in the registry are
counted in `sourceCount` (which counts distinct `sourceId`s of all members)
but excluded from `leanDistribution` and `averageBias`: the bucket counts sum
to the number of members whose source resolves, and the average is taken over
the resolved members' `knownBias` only.  On a concrete cluster with an
unregistered source the bucket sum (2) is smaller than the member count (3)
while `sourceCount` is 3. -/
theorem C10_unresolved_members_excluded :
    (∀ articles : List NewsArticle,
      (StoryAggregator.analyzeCoverage articles).leanDistribution.left +
          (StoryAggregator.analyzeCoverage articles).leanDistribution.center +
          (StoryAggregator.analyzeCoverage articles).leanDistribution.right =
        (articles.filter (fun a => (getSource a.sourceId).isSome)).length ∧
      (StoryAggregator.analyzeCoverage articles).averageBias =
        ⟨StoryAggregator.average ((resolvedBias articles).map (fun b => b.politicalLean)),
          StoryAggregator.average ((resolvedBias articles).map (·.sensationalism)),
          StoryAggregator.average ((resolvedBias articles).map (·.factualAccuracy)),
          StoryAggregator.average ((resolvedBias articles).map (·.opinionMixing)),
          StoryAggregator.average ((resolvedBias articles).map (·.transparency))⟩ ∧
      (StoryAggregator.analyzeCoverage articles).sourceCount =
        ((articles.map (·.sourceId)).dedup).length) ∧
    (StoryAggregator.analyzeCoverage demoUnknownSource).leanDistribution.left +
        (StoryAggregator.analyzeCoverage demoUnknownSource).leanDistribution.center +
        (StoryAggregator.analyzeCoverage demoUnknownSource).leanDistribution.right =
      2 ∧
    demoUnknownSource.length = 3 ∧
    (StoryAggregator.analyzeCoverage demoUnknownSource).sourceCount = 3 := by
  refine ⟨fun articles => ⟨?_, ?_, rfl⟩,
    by rw [analyzeCoverage_leanDistribution]
       norm_num +decide [demoUnknownSource, StoryAggregator.coverageFold,
         StoryAggregator.coverageStep, getSource, ALL_SOURCES, List.find?],
    by decide, by decide⟩
  · rw [analyzeCoverage_leanDistribution]
    exact coverageFold_sum articles
  · rw [analyzeCoverage_averageBias, coverageFold_snd]

/-! ## Claim C5: zero-norm safety and the empty average -/
/-- C5: `cosineSimilarity` returns `0` (a total function: never NaN, never a
thrown error) whenever either vector has zero norm, and the coverage
analyzer's arithmetic mean of an empty list is `0`. -/
theorem C5_zero_norm_cosine_and_empty_average :
    (∀ v1 v2 : List (String × ℝ),
      WebClustering.normSq v1 = 0 ∨ WebClustering.normSq v2 = 0 →
        WebClustering.cosineSimilarity v1 v2 = 0) ∧
      StoryAggregator.average [] = 0 := by
  refine ⟨fun v1 v2 h => ?_, rfl⟩
  unfold WebClustering.cosineSimilarity
  rcases h with h | h <;> simp [h]

theorem C5_zero_norm_cosine_and_empty_average_witness :
    WebClustering.cosineSimilarity [] [("term", (2 : ℝ))] = 0 ∧
      StoryAggregator.average [] = 0 :=
  ⟨C5_zero_norm_cosine_and_empty_average.1 [] [("term", 2)]
      (Or.inl (by simp [WebClustering.normSq])),
    C5_zero_norm_cosine_and_empty_average.2⟩

/-! ## Claim C9: tokenizer/normalizer output -/
theorem keepToken_iff (t : String) :
    WebClustering.keepToken t = true ↔
      3 ≤ t.length ∧ t ∉ WebClustering.stopWords ∧
        WebClustering.isPureNumeric t = false := by
  unfold WebClustering.keepToken
  split_ifs with h1 h2 h3 <;> simp_all

/-- C9 (amended): every token that survives the `preprocessText` filter has
length at least 3, is not a stop word and is not purely numeric; the output
sequence is the image of those filtered tokens under the stemming map, which
is applied after the filter, and empty input yields empty output. -/
theorem C9_filtered_tokens_then_stemmed (text : String) :
    (∀ t ∈ WebClustering.preprocessText text, ∃ t0,
      t0 ∈ WebClustering.wordTokenize (WebClustering.asciiLower text) ∧
        t = WebClustering.stem t0 ∧ 3 ≤ t0.length ∧
        t0 ∉ WebClustering.stopWords ∧
        WebClustering.isPureNumeric t0 = false) ∧
      WebClustering.preprocessText "" = [] := by
  refine ⟨fun t ht => ?_, rfl⟩
  unfold WebClustering.preprocessText at ht
  by_cases h0 : text = ""
  · simp [h0] at ht
  · rw [if_neg h0] at ht
    obtain ⟨t0, ht0, hstem⟩ := List.mem_map.mp ht
    have hmem := List.mem_filter.mp ht0
    have hk := (keepToken_iff t0).mp hmem.2
    exact ⟨t0, hmem.1, hstem.symm, hk.1, hk.2.1, hk.2.2⟩

theorem C9_filtered_tokens_then_stemmed_witness :
    "run" ∈ WebClustering.preprocessText "running" ∧
      (∃ t0, t0 ∈ WebClustering.wordTokenize
          (WebClustering.asciiLower "running") ∧
        "run" = WebClustering.stem t0 ∧ 3 ≤ t0.length ∧
        t0 ∉ WebClustering.stopWords ∧
        WebClustering.isPureNumeric t0 = false) :=
  ⟨by decide, (C9_filtered_tokens_then_stemmed "running").1 "run" (by decide)⟩

/-- C9 (counterexample): on input `"doing"` the output is `["do"]`: the
stemming map runs after the filter, so the emitted token has length 2 and is
a member of the stop-word set, contradicting the claim. -/
theorem C9_counterexample :
    WebClustering.preprocessText "doing" = ["do"] ∧
      ("do" : String).length < 3 ∧ "do" ∈ WebClustering.stopWords := by
  refine ⟨by decide, by decide, by decide⟩

theorem vget_id_inj (vs : List WebClustering.DocumentVector)
    (h : (vs.map (·.id)).Nodup) {i j : Nat}
    (hi : i < vs.length) (hj : j < vs.length)
    (hij : (WebClustering.vget vs i).id = (WebClustering.vget vs j).id) :
    i = j := by
  have hi' : i < (vs.map (·.id)).length := by simpa using hi
  have hj' : j < (vs.map (·.id)).length := by simpa using hj
  have e1 : (WebClustering.vget vs i).id = (vs.map (·.id))[i] := by
    rw [WebClustering.vget, List.getD_eq_getElem vs _ hi, List.getElem_map]
  have e2 : (WebClustering.vget vs j).id = (vs.map (·.id))[j] := by
    rw [WebClustering.vget, List.getD_eq_getElem vs _ hj, List.getElem_map]
  have : (vs.map (·.id))[i] = (vs.map (·.id))[j] := by
    rw [← e1, ← e2, hij]
  exact (List.Nodup.getElem_inj_iff h).mp this

theorem simEntry_eq_expected (vs : List WebClustering.DocumentVector)
    (m : List (String × List (String × ℝ))) (k j : Nat)
    (hk : k < vs.length) (hj : j < vs.length)
    (hinv : WebClustering.MatInv vs k m) :
    WebClustering.simEntry vs m k j = WebClustering.expectedEntry vs k j := by
  rcases Nat.lt_trichotomy k j with hlt | heq | hgt
  · have hne : k ≠ j := Nat.ne_of_lt hlt
    rw [WebClustering.simEntry, WebClustering.expectedEntry,
      if_neg hne, if_neg hne, if_neg (Nat.not_lt.mpr (Nat.le_of_lt hlt)),
      if_pos hlt]
  · subst heq
    rw [WebClustering.simEntry, WebClustering.expectedEntry, if_pos rfl,
      if_pos rfl]
  · have hne : k ≠ j := (Nat.ne_of_lt hgt).symm
    obtain ⟨r, hr, hrow⟩ := hinv j hgt
    rw [WebClustering.simEntry, WebClustering.expectedEntry, if_neg hne,
      if_neg hne, if_pos hgt, if_neg (Nat.not_lt.mpr (Nat.le_of_lt hgt)), hr]
    rw [Option.getD_some, hrow k hk]
    rw [WebClustering.expectedEntry, if_neg (Nat.ne_of_lt hgt).symm.symm]
    · rw [if_pos hgt, Option.getD_some]

theorem simRowAux_spec (vs : List WebClustering.DocumentVector)
    (hnodup : (vs.map (·.id)).Nodup)
    (m : List (String × List (String × ℝ))) (k : Nat) (hk : k < vs.length)
    (hinv : WebClustering.MatInv vs k m) :
    ∀ J, J ≤ vs.length → ∀ j, j < J →
      mget (WebClustering.simRowAux vs m k J) (WebClustering.vget vs j).id =
        some (WebClustering.expectedEntry vs k j) := by
  intro J
  induction J with
  | zero => intro _ j hj; omega
  | succ J ih =>
    intro hJ j hj
    have hJn : J < vs.length := Nat.lt_of_succ_le hJ
    by_cases hjJ : j = J
    · subst hjJ
      rw [WebClustering.simRowAux, mget_mset_self,
        simEntry_eq_expected vs m k j hk hJn hinv]
    · have hne : (WebClustering.vget vs J).id ≠ (WebClustering.vget vs j).id :=
        fun he => hjJ (vget_id_inj vs hnodup hJn
          (Nat.lt_of_lt_of_le hj hJ) he).symm
      rw [WebClustering.simRowAux, mget_mset_ne _ _ hne]
      exact ih (Nat.le_of_succ_le hJ) j (by omega)

theorem simMatrixAux_inv (vs : List WebClustering.DocumentVector)
    (hnodup : (vs.map (·.id)).Nodup) :
    ∀ k, k ≤ vs.length →
      WebClustering.MatInv vs k (WebClustering.simMatrixAux vs k) := by
  intro k
  induction k with
  | zero => intro _ i hi; omega
  | succ k ih =>
    intro hk i hi
    have hkn : k < vs.length := Nat.lt_of_succ_le hk
    have hinv := ih (Nat.le_of_succ_le hk)
    by_cases hik : i = k
    · subst hik
      refine ⟨WebClustering.simRowAux vs (WebClustering.simMatrixAux vs i) i
          vs.length, ?_, ?_⟩
      · rw [WebClustering.simMatrixAux, mget_mset_self]
      · intro j hj
        exact simRowAux_spec vs hnodup _ i hkn hinv vs.length le_rfl j hj
    · have hlt : i < k := by omega
      have hne : (WebClustering.vget vs k).id ≠ (WebClustering.vget vs i).id :=
        fun he => hik (vget_id_inj vs hnodup hkn (by omega) he).symm
      obtain ⟨r, hr, hrow⟩ := hinv i hlt
      exact ⟨r, by rw [WebClustering.simMatrixAux, mget_mset_ne _ _ hne, hr],
        hrow⟩

theorem expectedEntry_symm (vs : List WebClustering.DocumentVector)
    (a b : Nat) :
    WebClustering.expectedEntry vs a b = WebClustering.expectedEntry vs b a := by
  rcases Nat.lt_trichotomy a b with h | h | h
  · rw [WebClustering.expectedEntry, WebClustering.expectedEntry,
      if_neg (Nat.ne_of_lt h), if_neg (Nat.ne_of_lt h).symm, if_pos h,
      if_neg (Nat.not_lt.mpr (Nat.le_of_lt h))]
  · subst h
    rfl
  · rw [WebClustering.expectedEntry, WebClustering.expectedEntry,
      if_neg (Nat.ne_of_lt h).symm, if_neg (Nat.ne_of_lt h),
      if_neg (Nat.not_lt.mpr (Nat.le_of_lt h)), if_pos h]

/-- C4: for every batch of document vectors with distinct ids, the similarity
matrix built by `calculateSimilarityMatrix` is symmetric — the entry at
`(idA, idB)` equals the entry at `(idB, idA)` for every pair of documents —
and every diagonal entry is exactly `1.0`, regardless of the vectors'
content. -/
theorem C4_matrix_symmetric_and_unit_diagonal
    (vs : List WebClustering.DocumentVector)
    (hnodup : (vs.map (·.id)).Nodup) (a b : Nat)
    (ha : a < vs.length) (hb : b < vs.length) :
    WebClustering.matrixEntry (WebClustering.calculateSimilarityMatrix vs)
        (WebClustering.vget vs a).id (WebClustering.vget vs b).id =
      WebClustering.matrixEntry (WebClustering.calculateSimilarityMatrix vs)
        (WebClustering.vget vs b).id (WebClustering.vget vs a).id ∧
    WebClustering.matrixEntry (WebClustering.calculateSimilarityMatrix vs)
        (WebClustering.vget vs a).id (WebClustering.vget vs a).id = some 1 := by
  have hinv := simMatrixAux_inv vs hnodup vs.length le_rfl
  obtain ⟨ra, hra, hrowa⟩ := hinv a ha
  obtain ⟨rb, hrb, hrowb⟩ := hinv b hb
  have ea : WebClustering.matrixEntry (WebClustering.calculateSimilarityMatrix
      vs) (WebClustering.vget vs a).id (WebClustering.vget vs b).id =
      some (WebClustering.expectedEntry vs a b) := by
    rw [WebClustering.matrixEntry, WebClustering.calculateSimilarityMatrix,
      hra]
    exact hrowa b hb
  have eb : WebClustering.matrixEntry (WebClustering.calculateSimilarityMatrix
      vs) (WebClustering.vget vs b).id (WebClustering.vget vs a).id =
      some (WebClustering.expectedEntry vs b a) := by
    rw [WebClustering.matrixEntry, WebClustering.calculateSimilarityMatrix,
      hrb]
    exact hrowb a ha
  have eaa : WebClustering.matrixEntry (WebClustering.calculateSimilarityMatrix
      vs) (WebClustering.vget vs a).id (WebClustering.vget vs a).id =
      some (WebClustering.expectedEntry vs a a) := by
    rw [WebClustering.matrixEntry, WebClustering.calculateSimilarityMatrix,
      hra]
    exact hrowa a ha
  refine ⟨?_, ?_⟩
  · rw [ea, eb, expectedEntry_symm]
  · rw [eaa, WebClustering.expectedEntry, if_pos rfl]

theorem C4_matrix_symmetric_and_unit_diagonal_witness :
    WebClustering.matrixEntry (WebClustering.calculateSimilarityMatrix
        demoVectors) "a" "b" =
      WebClustering.matrixEntry (WebClustering.calculateSimilarityMatrix
        demoVectors) "b" "a" ∧
    WebClustering.matrixEntry (WebClustering.calculateSimilarityMatrix
        demoVectors) "a" "a" = some 1 :=
  C4_matrix_symmetric_and_unit_diagonal demoVectors
    (by simp [demoVectors]) 0 1 (by simp [demoVectors]) (by simp [demoVectors])

/-! ## Claim C3: map and list support lemmas -/
theorem mget_mem {α β : Type} [DecidableEq α] {m : List (α × β)} {k : α}
    {v : β} (h : mget m k = some v) : (k, v) ∈ m := by
  induction m with
  | nil => simp [mget] at h
  | cons hd tl ih =>
    obtain ⟨k', v'⟩ := hd
    by_cases h0 : k' = k
    · subst h0
      rw [mget, if_pos rfl] at h
      simp [Option.some_inj.mp h]
    · rw [mget, if_neg h0] at h
      exact List.mem_cons_of_mem _ (ih h)

theorem mem_mset {α β : Type} [DecidableEq α] {m : List (α × β)} {k : α}
    {v : β} {e : α × β} (h : e ∈ mset m k v) : e = (k, v) ∨ e ∈ m := by
  induction m with
  | nil => simpa [mset] using h
  | cons hd tl ih =>
    obtain ⟨k', v'⟩ := hd
    by_cases h0 : k' = k
    · subst h0
      rw [mset, if_pos rfl] at h
      rcases List.mem_cons.mp h with h | h
      · exact Or.inl (by simpa using h)
      · exact Or.inr (List.mem_cons_of_mem _ h)
    · rw [mset, if_neg h0] at h
      rcases List.mem_cons.mp h with h | h
      · exact Or.inr (by simp [h])
      · rcases ih h with h | h
        · exact Or.inl h
        · exact Or.inr (List.mem_cons_of_mem _ h)

theorem fst_mem_mkeys {α β : Type} {m : List (α × β)} {e : α × β}
    (h : e ∈ m) : e.1 ∈ mkeys m := List.mem_map.mpr ⟨e, h, rfl⟩

theorem mem_mkeys_mset {α β : Type} [DecidableEq α] {m : List (α × β)}
    {k a : α} {v : β} (h : a ∈ mkeys (mset m k v)) : a = k ∨ a ∈ mkeys m := by
  obtain ⟨e, he, hfst⟩ := List.mem_map.mp h
  rcases mem_mset he with h0 | h0
  · subst h0
    exact Or.inl hfst.symm
  · exact Or.inr (hfst ▸ fst_mem_mkeys h0)

theorem mset_eq_append_of_not_mem {α β : Type} [DecidableEq α]
    {m : List (α × β)} {k : α} (v : β) (h : k ∉ mkeys m) :
    mset m k v = m ++ [(k, v)] := by
  induction m with
  | nil => simp [mset]
  | cons hd tl ih =>
    obtain ⟨k', v'⟩ := hd
    have h0 : k' ≠ k := fun hk => h (by simp [hk])
    have h' : k ∉ mkeys tl := fun hk => h (by simp [hk])
    simp [mset, h0, ih h']

theorem nodup_mkeys_mset {α β : Type} [DecidableEq α] {m : List (α × β)}
    {k : α} {v : β} (h : (mkeys m).Nodup) : (mkeys (mset m k v)).Nodup := by
  by_cases hk : k ∈ mkeys m
  · rw [mkeys_mset_of_mem _ _ _ hk]
    exact h
  · rw [mkeys_mset_of_not_mem _ _ _ hk]
    simpa [List.nodup_append] using ⟨h, hk⟩

theorem filterMap_length_of_isSome {α β : Type} {l : List α}
    {f : α → Option β} (h : ∀ x ∈ l, (f x).isSome) :
    (l.filterMap f).length = l.length := by
  induction l with
  | nil => rfl
  | cons x xs ih =>
    have hx := h x (List.mem_cons_self x xs)
    obtain ⟨y, hy⟩ := Option.isSome_iff_exists.mp hx
    rw [List.filterMap_cons, hy]
    simp [ih (fun z hz => h z (List.mem_cons_of_mem _ hz))]

theorem mget_pairlist {articles : List WebClustering.WebArticle} {id : String}
    (h : id ∈ articles.map (·.id)) :
    ∃ a, mget (articles.map (fun a => (a.id, a))) id = some a ∧
      a ∈ articles ∧ a.id = id := by
  induction articles with
  | nil => simp at h
  | cons a rest ih =>
    by_cases h0 : a.id = id
    · exact ⟨a, by simp [mget, h0], List.mem_cons_self a rest, h0⟩
    · have h' : id ∈ rest.map (·.id) := by
        rcases (by simpa using h : id = a.id ∨ id ∈ rest.map (·.id)) with h | h
        · exact absurd h.symm h0
        · exact h
      obtain ⟨b, hb, hbm, hbid⟩ := ih h'
      exact ⟨b, by simp [mget, h0, hb], List.mem_cons_of_mem _ hbm, hbid⟩

theorem filterMap_mget_map_id {amap : List (String × WebClustering.WebArticle)}
    {g : List String}
    (h : ∀ id ∈ g, ∃ a, mget amap id = some a ∧ a.id = id) :
    ((g.filterMap (fun id => mget amap id)).map (·.id)) = g := by
  induction g with
  | nil => rfl
  | cons id rest ih =>
    obtain ⟨a, ha, haid⟩ := h id (List.mem_cons_self id rest)
    rw [List.filterMap_cons, ha]
    simp only [List.map_cons, haid]
    rw [ih (fun z hz => h z (List.mem_cons_of_mem _ hz))]

theorem findAux_spec (fuel : Nat) :
    ∀ (p : List (String × String)) (x : String),
      WebClustering.ParentClosed p → x ∈ mkeys p →
      mkeys (WebClustering.findAux fuel p x).2 = mkeys p ∧
        WebClustering.ParentClosed (WebClustering.findAux fuel p x).2 ∧
        (WebClustering.findAux fuel p x).1 ∈ mkeys p := by
  induction fuel with
  | zero => exact fun p x hinv hx => ⟨rfl, hinv, hx⟩
  | succ fuel ih =>
    intro p x hinv hx
    cases hm : mget p x with
    | none =>
      have h2 : (WebClustering.findAux (fuel + 1) p x).2 = p := by
        simp [WebClustering.findAux, hm]
      have h1 : (WebClustering.findAux (fuel + 1) p x).1 = x := by
        simp [WebClustering.findAux, hm]
      rw [h1, h2]
      exact ⟨rfl, hinv, hx⟩
    | some px =>
      by_cases hpx : px = x
      · have h2 : (WebClustering.findAux (fuel + 1) p x).2 = p := by
          simp [WebClustering.findAux, hm, hpx]
        have h1 : (WebClustering.findAux (fuel + 1) p x).1 = x := by
          simp [WebClustering.findAux, hm, hpx]
        rw [h1, h2]
        exact ⟨rfl, hinv, hx⟩
      · have h2 : (WebClustering.findAux (fuel + 1) p x).2 =
            mset (WebClustering.findAux fuel p px).2 x
              (WebClustering.findAux fuel p px).1 := by
          simp [WebClustering.findAux, hm, hpx]
        have h1 : (WebClustering.findAux (fuel + 1) p x).1 =
            (WebClustering.findAux fuel p px).1 := by
          simp [WebClustering.findAux, hm, hpx]
        have hpxk : px ∈ mkeys p := hinv (x, px) (mget_mem hm)
        obtain ⟨hkeys, hinv', hr⟩ := ih p px hinv hpxk
        have hxk : x ∈ mkeys (WebClustering.findAux fuel p px).2 :=
          hkeys ▸ hx
        rw [h1, h2]
        refine ⟨?_, ?_, hr⟩
        · rw [mkeys_mset_of_mem _ _ _ hxk, hkeys]
        · intro e he
          rw [mkeys_mset_of_mem _ _ _ hxk]
          rcases mem_mset he with he | he
          · rw [he]
            exact hkeys ▸ hr
          · exact hinv' e he

theorem find_spec (uf : WebClustering.UnionFind) (x : String)
    (hinv : WebClustering.ParentClosed uf.parent) (hx : x ∈ mkeys uf.parent) :
    mkeys (uf.find x).2.parent = mkeys uf.parent ∧
      WebClustering.ParentClosed (uf.find x).2.parent ∧
      (uf.find x).1 ∈ mkeys uf.parent ∧ (uf.find x).2.rank = uf.rank := by
  obtain ⟨h1, h2, h3⟩ := findAux_spec uf.parent.length uf.parent x hinv hx
  exact ⟨h1, h2, h3, rfl⟩

theorem parent_mset_closed {p : List (String × String)} {r1 r2 : String}
    (h1 : r1 ∈ mkeys p) (h2 : r2 ∈ mkeys p)
    (hinv : WebClustering.ParentClosed p) :
    mkeys (mset p r1 r2) = mkeys p ∧
      WebClustering.ParentClosed (mset p r1 r2) := by
  refine ⟨mkeys_mset_of_mem _ _ _ h1, ?_⟩
  intro e he
  rw [mkeys_mset_of_mem _ _ _ h1]
  rcases mem_mset he with he | he
  · rw [he]
    exact h2
  · exact hinv e he

theorem union_spec (uf : WebClustering.UnionFind) (x y : String)
    (hinv : WebClustering.ParentClosed uf.parent)
    (hx : x ∈ mkeys uf.parent) (hy : y ∈ mkeys uf.parent) :
    mkeys (uf.union x y).parent = mkeys uf.parent ∧
      WebClustering.ParentClosed (uf.union x y).parent := by
  obtain ⟨hk1, hc1, hr1, _⟩ := find_spec uf x hinv hx
  obtain ⟨hk2, hc2, hr2, _⟩ :=
    find_spec (uf.find x).2 y hc1 (hk1 ▸ hy)
  rw [WebClustering.UnionFind.union]
  have hkk : mkeys ((uf.find x).2.find y).2.parent = mkeys uf.parent :=
    hk2.trans hk1
  have hrx : (uf.find x).1 ∈ mkeys ((uf.find x).2.find y).2.parent :=
    hkk ▸ hr1
  have hry : ((uf.find x).2.find y).1 ∈
      mkeys ((uf.find x).2.find y).2.parent := hkk ▸ (hk1 ▸ hr2)
  by_cases heq : (uf.find x).1 = ((uf.find x).2.find y).1
  · rw [if_pos heq]
    exact ⟨hkk, hc2⟩
  · rw [if_neg heq]
    by_cases hlt : (mget ((uf.find x).2.find y).2.rank (uf.find x).1).getD 0 <
        (mget ((uf.find x).2.find y).2.rank (((uf.find x).2.find y).1)).getD 0
    · rw [if_pos hlt]
      obtain ⟨ha, hb⟩ := parent_mset_closed hrx hry hc2
      exact ⟨ha.trans hkk, hb⟩
    · rw [if_neg hlt]
      by_cases hgt : (mget ((uf.find x).2.find y).2.rank
            (((uf.find x).2.find y).1)).getD 0 <
          (mget ((uf.find x).2.find y).2.rank ((uf.find x).1)).getD 0
      · rw [if_pos hgt]
        obtain ⟨ha, hb⟩ := parent_mset_closed hry hrx hc2
        exact ⟨ha.trans hkk, hb⟩
      · rw [if_neg hgt]
        obtain ⟨ha, hb⟩ := parent_mset_closed hry hrx hc2
        exact ⟨ha.trans hkk, hb⟩

theorem init_fold_spec (ids : List String) :
    ∀ m0 : List (String × String), (mkeys m0 ++ ids).Nodup →
      mkeys (ids.foldl (fun m id => mset m id id) m0) = mkeys m0 ++ ids ∧
        (∀ e ∈ ids.foldl (fun m id => mset m id id) m0,
          e ∈ m0 ∨ e.2 = e.1) := by
  induction ids with
  | nil => exact fun m0 _ => ⟨by simp, fun e he => Or.inl he⟩
  | cons id rest ih =>
    intro m0 hnd
    have hid : id ∉ mkeys m0 := by
      intro hmem
      rw [List.nodup_append] at hnd
      exact hnd.2.2 hmem (List.mem_cons_self id rest)
    have hkeys : mkeys (mset m0 id id) = mkeys m0 ++ [id] :=
      mkeys_mset_of_not_mem _ _ _ hid
    have hnd' : (mkeys (mset m0 id id) ++ rest).Nodup := by
      rw [hkeys]
      simpa [List.append_assoc] using hnd
    obtain ⟨h1, h2⟩ := ih (mset m0 id id) hnd'
    refine ⟨by rw [List.foldl_cons, h1, hkeys, List.append_assoc]; rfl, ?_⟩
    intro e he
    rcases h2 e (by simpa using he) with he' | he'
    · rcases mem_mset he' with he'' | he''
      · exact Or.inr (by rw [he''])
      · exact Or.inl he''
    · exact Or.inr he'

theorem init_spec (ids : List String) (h : ids.Nodup) :
    mkeys (WebClustering.UnionFind.init ids).parent = ids ∧
      WebClustering.ParentClosed (WebClustering.UnionFind.init ids).parent := by
  obtain ⟨h1, h2⟩ := init_fold_spec ids [] (by simpa using h)
  refine ⟨by simpa using h1, ?_⟩
  intro e he
  rcases h2 e he with he' | he'
  · simp at he'
  · rw [he']
    exact fst_mem_mkeys he

theorem vget_id_mem (vs : List WebClustering.DocumentVector) {j : Nat}
    (hj : j < vs.length) : (WebClustering.vget vs j).id ∈ vs.map (·.id) := by
  rw [WebClustering.vget, List.getD_eq_getElem vs _ hj]
  exact List.mem_map.mpr ⟨vs[j], List.getElem_mem hj, rfl⟩

theorem simRowAux_keys_subset (vs : List WebClustering.DocumentVector)
    (m : List (String × List (String × ℝ))) (i : Nat) :
    ∀ J, J ≤ vs.length →
      ∀ a ∈ mkeys (WebClustering.simRowAux vs m i J), a ∈ vs.map (·.id) := by
  intro J
  induction J with
  | zero => intro _ a ha; simp [WebClustering.simRowAux] at ha
  | succ J ih =>
    intro hJ a ha
    rw [WebClustering.simRowAux] at ha
    rcases mem_mkeys_mset ha with ha' | ha'
    · rw [ha']
      exact vget_id_mem vs (Nat.lt_of_succ_le hJ)
    · exact ih (Nat.le_of_succ_le hJ) a ha'

theorem simMatrixAux_rows_subset (vs : List WebClustering.DocumentVector) :
    ∀ k, k ≤ vs.length →
      ∀ e ∈ WebClustering.simMatrixAux vs k,
        ∀ a ∈ mkeys e.2, a ∈ vs.map (·.id) := by
  intro k
  induction k with
  | zero => intro _ e he; simp [WebClustering.simMatrixAux] at he
  | succ k ih =>
    intro hk e he
    rw [WebClustering.simMatrixAux] at he
    rcases mem_mset he with he' | he'
    · rw [he']
      exact fun a ha => simRowAux_keys_subset vs _ k vs.length le_rfl a ha
    · exact ih (Nat.le_of_succ_le hk) e he'

open Classical in
theorem findSimilar_subset (docId : String)
    (matrix : List (String × List (String × ℝ))) (threshold : ℝ) :
    ∀ id' ∈ WebClustering.findSimilarDocuments docId matrix threshold,
      ∃ row, mget matrix docId = some row ∧ id' ∈ mkeys row := by
  intro id' hmem
  rw [WebClustering.findSimilarDocuments] at hmem
  cases hm : mget matrix docId with
  | none => rw [hm] at hmem; simp at hmem
  | some row =>
    rw [hm] at hmem
    refine ⟨row, rfl, ?_⟩
    obtain ⟨e, he, hfst⟩ := List.mem_map.mp hmem
    exact hfst ▸ fst_mem_mkeys (List.mem_filter.mp he).1

theorem buildTfIdfVectors_ids (docs : List WebClustering.WebArticle) :
    (WebClustering.buildTfIdfVectors docs).map (·.id) = docs.map (·.id) := by
  simp [WebClustering.buildTfIdfVectors, List.map_map, Function.comp]

theorem unionFold_spec (x : String) (sims : List String) :
    ∀ uf : WebClustering.UnionFind,
      WebClustering.ParentClosed uf.parent → x ∈ mkeys uf.parent →
      (∀ y ∈ sims, y ∈ mkeys uf.parent) →
      mkeys ((sims.foldl (fun uf otherId => uf.union x otherId) uf).parent) =
          mkeys uf.parent ∧
        WebClustering.ParentClosed
          ((sims.foldl (fun uf otherId => uf.union x otherId) uf).parent) := by
  induction sims with
  | nil => exact fun uf hc _ _ => ⟨rfl, hc⟩
  | cons y rest ih =>
    intro uf hc hx hall
    obtain ⟨hk, hc'⟩ := union_spec uf x y hc hx
      (hall y (List.mem_cons_self y rest))
    obtain ⟨hk', hc''⟩ := ih (uf.union x y) hc' (hk ▸ hx)
      (fun z hz => hk ▸ hall z (List.mem_cons_of_mem _ hz))
    exact ⟨by rw [List.foldl_cons, hk', hk], by rw [List.foldl_cons]; exact hc''⟩

theorem clusterUnionFold_spec
    (matrix : List (String × List (String × ℝ))) (threshold : ℝ)
    (arts : List WebClustering.WebArticle) (ids : List String)
    (hmat : ∀ e ∈ matrix, ∀ a ∈ mkeys e.2, a ∈ ids) :
    ∀ uf : WebClustering.UnionFind, mkeys uf.parent = ids →
      WebClustering.ParentClosed uf.parent →
      (∀ a ∈ arts, a.id ∈ ids) →
      mkeys ((arts.foldl
          (fun uf a =>
            (WebClustering.findSimilarDocuments a.id matrix threshold).foldl
              (fun uf otherId => uf.union a.id otherId) uf) uf).parent) =
          ids ∧
        WebClustering.ParentClosed ((arts.foldl
          (fun uf a =>
            (WebClustering.findSimilarDocuments a.id matrix threshold).foldl
              (fun uf otherId => uf.union a.id otherId) uf) uf).parent) := by
  induction arts with
  | nil => exact fun uf hkeys hc _ => ⟨hkeys, hc⟩
  | cons a rest ih =>
    intro uf hkeys hc hall
    have hsims : ∀ y ∈ WebClustering.findSimilarDocuments a.id matrix
        threshold, y ∈ mkeys uf.parent := by
      intro y hy
      obtain ⟨row, hrow, hyrow⟩ := findSimilar_subset a.id matrix threshold
        y hy
      rw [hkeys]
      exact hmat (a.id, row) (mget_mem hrow) y hyrow
    obtain ⟨hk, hc'⟩ := unionFold_spec a.id
      (WebClustering.findSimilarDocuments a.id matrix threshold) uf hc
      (hkeys ▸ hall a (List.mem_cons_self a rest)) hsims
    obtain ⟨hk', hc''⟩ := ih _ (hk.trans hkeys) hc'
      (fun b hb => hall b (List.mem_cons_of_mem _ hb))
    exact ⟨hk', hc''⟩

theorem clusterUnionFind_spec (articles : List WebClustering.WebArticle)
    (h : (articles.map (·.id)).Nodup) :
    mkeys (WebClustering.clusterUnionFind articles).parent =
        articles.map (·.id) ∧
      WebClustering.ParentClosed
        (WebClustering.clusterUnionFind articles).parent := by
  obtain ⟨hk0, hc0⟩ := init_spec (articles.map (·.id)) h
  have hvids : (WebClustering.buildTfIdfVectors
      (articles.map (fun a => ⟨a.id, a.title, a.description⟩))).map (·.id) =
      articles.map (·.id) := by
    rw [buildTfIdfVectors_ids, List.map_map]
    rfl
  have hmat : ∀ e ∈ WebClustering.calculateSimilarityMatrix
      (WebClustering.buildTfIdfVectors
        (articles.map (fun a => ⟨a.id, a.title, a.description⟩))),
      ∀ a ∈ mkeys e.2, a ∈ articles.map (·.id) := by
    intro e he a ha
    rw [← hvids]
    exact simMatrixAux_rows_subset _ _ le_rfl e he a ha
  exact clusterUnionFold_spec _ WebClustering.SIMILARITY_THRESHOLD articles
    (articles.map (·.id)) hmat _ hk0 hc0 (fun a ha => List.mem_map_of_mem _ ha)

theorem bucket_step_perm (buckets : List (String × List String))
    (root id : String) :
    (((mset buckets root (((mget buckets root).getD []) ++ [id])).map
        (·.2)).flatten).Perm
      (((buckets.map (·.2)).flatten) ++ [id]) := by
  induction buckets with
  | nil => simp [mset, mget]
  | cons hd tl ih =>
    obtain ⟨k, v⟩ := hd
    by_cases h0 : k = root
    · subst h0
      rw [mget, if_pos rfl, mset, if_pos rfl]
      simp only [Option.getD_some, List.map_cons, List.flatten_cons]
      rw [List.append_assoc, List.append_assoc]
      have h1 : ([id] ++ (tl.map (·.2)).flatten).Perm
          ((tl.map (·.2)).flatten ++ [id]) := List.perm_append_comm
      exact List.Perm.append_left v h1
    · rw [mget, if_neg h0, mset, if_neg h0]
      simp only [List.map_cons, List.flatten_cons]
      rw [List.append_assoc]
      exact List.Perm.append_left v (ih)

theorem getClusters_fold_perm (idsL : List String) :
    ∀ acc : List (String × List String) × WebClustering.UnionFind,
      ((((idsL.foldl
          (fun acc id =>
            let r := acc.2.find id
            (mset acc.1 r.1 (((mget acc.1 r.1).getD []) ++ [id]), r.2))
          acc).1.map (·.2)).flatten)).Perm
        (((acc.1.map (·.2)).flatten) ++ idsL) := by
  induction idsL with
  | nil => exact fun acc => by simp
  | cons id rest ih =>
    intro acc
    rw [List.foldl_cons]
    refine (ih _).trans ?_
    have hstep := bucket_step_perm acc.1 ((acc.2.find id).1) id
    refine (hstep.append_right rest).trans ?_
    rw [List.append_assoc]
    rfl

theorem getClusters_perm (uf : WebClustering.UnionFind) :
    ((((uf.getClusters).1.map (·.2)).flatten)).Perm (mkeys uf.parent) := by
  have h := getClusters_fold_perm (mkeys uf.parent) ([], uf)
  simpa [WebClustering.UnionFind.getClusters] using h

theorem getClusters_fold_keys_nodup (idsL : List String) :
    ∀ acc : List (String × List String) × WebClustering.UnionFind,
      (mkeys acc.1).Nodup →
      (mkeys ((idsL.foldl
          (fun acc id =>
            let r := acc.2.find id
            (mset acc.1 r.1 (((mget acc.1 r.1).getD []) ++ [id]), r.2))
          acc).1)).Nodup := by
  induction idsL with
  | nil => exact fun acc h => h
  | cons id rest ih =>
    intro acc h
    rw [List.foldl_cons]
    exact ih _ (nodup_mkeys_mset h)

theorem getClusters_keys_nodup (uf : WebClustering.UnionFind) :
    (mkeys (uf.getClusters).1).Nodup := by
  have h := getClusters_fold_keys_nodup (mkeys uf.parent) ([], uf) (by simp)
  simpa [WebClustering.UnionFind.getClusters] using h

theorem clusterGroups_flatten_perm (articles : List WebClustering.WebArticle)
    (h : (articles.map (·.id)).Nodup) :
    ((((WebClustering.clusterGroups articles).map (·.2)).flatten)).Perm
      (articles.map (·.id)) := by
  have hperm := getClusters_perm (WebClustering.clusterUnionFind articles)
  rw [(clusterUnionFind_spec articles h).1] at hperm
  exact hperm

theorem clusterGroups_keys_nodup (articles : List WebClustering.WebArticle) :
    (mkeys (WebClustering.clusterGroups articles)).Nodup :=
  getClusters_keys_nodup _

theorem buildArticleMap_fold (articles : List WebClustering.WebArticle) :
    ∀ m0 : List (String × WebClustering.WebArticle),
      (mkeys m0 ++ articles.map (·.id)).Nodup →
      articles.foldl (fun m a => mset m a.id a) m0 =
        m0 ++ articles.map (fun a => (a.id, a)) := by
  induction articles with
  | nil => exact fun m0 _ => by simp
  | cons a rest ih =>
    intro m0 hnd
    have hid : a.id ∉ mkeys m0 := by
      intro hmem
      rw [List.nodup_append] at hnd
      exact hnd.2.2 hmem (by simp)
    have happ : mset m0 a.id a = m0 ++ [(a.id, a)] :=
      mset_eq_append_of_not_mem _ hid
    have hnd' : (mkeys (mset m0 a.id a) ++ rest.map (·.id)).Nodup := by
      rw [happ]
      have : mkeys (m0 ++ [(a.id, a)]) = mkeys m0 ++ [a.id] := by
        simp [mkeys]
      rw [this]
      simpa [List.append_assoc] using hnd
    rw [List.foldl_cons, ih (mset m0 a.id a) hnd', happ]
    simp

theorem buildArticleMap_eq (articles : List WebClustering.WebArticle)
    (h : (articles.map (·.id)).Nodup) :
    WebClustering.buildArticleMap articles =
      articles.map (fun a => (a.id, a)) := by
  have := buildArticleMap_fold articles [] (by simpa using h)
  simpa [WebClustering.buildArticleMap] using this

theorem map_filter_by_image {α β : Type} (f : α → β) (q : β → Bool)
    (l : List α) :
    ((l.filter (fun a => q (f a))).map f) = (l.map f).filter q := by
  induction l with
  | nil => rfl
  | cons a rest ih =>
    by_cases hq : q (f a) <;> simp [List.filter_cons, hq, ih]

theorem clusterFold_eq (amap : List (String × WebClustering.WebArticle)) :
    ∀ (groups : List (String × List String))
      (acc : List (String × List WebClustering.WebArticle)),
      (mkeys acc ++ mkeys groups).Nodup →
      groups.foldl
        (fun result c =>
          if WebClustering.MIN_CLUSTER_SIZE ≤ c.2.length then
            mset result c.1 (c.2.filterMap (fun id => mget amap id))
          else result) acc =
      acc ++ (groups.filter
          (fun c => WebClustering.MIN_CLUSTER_SIZE ≤ c.2.length)).map
          (fun c => (c.1, c.2.filterMap (fun id => mget amap id))) := by
  intro groups
  induction groups with
  | nil => exact fun acc _ => by simp
  | cons c rest ih =>
    intro acc hnd
    obtain ⟨hn1, hn2, hn3⟩ := List.nodup_append.mp hnd
    have hc1 : c.1 ∉ mkeys acc := by
      intro hmem
      exact hn3 hmem (by
        obtain ⟨k, v⟩ := c
        simp)
    by_cases hkeep : WebClustering.MIN_CLUSTER_SIZE ≤ c.2.length
    · rw [List.foldl_cons, if_pos hkeep]
      have happ : mset acc c.1 (c.2.filterMap (fun id => mget amap id)) =
          acc ++ [(c.1, c.2.filterMap (fun id => mget amap id))] :=
        mset_eq_append_of_not_mem _ hc1
      have hnd' : (mkeys (mset acc c.1
          (c.2.filterMap (fun id => mget amap id))) ++ mkeys rest).Nodup := by
        rw [happ]
        have hmk : mkeys (acc ++
            [(c.1, c.2.filterMap (fun id => mget amap id))]) =
            mkeys acc ++ [c.1] := by
          simp [mkeys]
        rw [hmk]
        have : mkeys (c :: rest) = c.1 :: mkeys rest := by
          obtain ⟨k, v⟩ := c
          simp
        rw [this] at hnd
        simpa [List.append_assoc] using hnd
      rw [ih _ hnd', happ, List.filter_cons, if_pos (by simpa using hkeep)]
      simp
    · rw [List.foldl_cons, if_neg hkeep]
      have hnd' : (mkeys acc ++ mkeys rest).Nodup := by
        have : mkeys (c :: rest) = c.1 :: mkeys rest := by
          obtain ⟨k, v⟩ := c
          simp
        rw [this] at hnd
        exact List.nodup_append.mpr ⟨hn1, (by
            rw [this] at hn2
            exact hn2.of_cons),
          fun a ha hb => (by
            rw [this] at hn3
            exact hn3 ha (List.mem_cons_of_mem _ hb))⟩
      rw [ih _ hnd', List.filter_cons, if_neg (by simpa using hkeep)]

/-- C3: for every input article list with distinct ids, every cluster
returned by `clusterArticles` has at least `MIN_CLUSTER_SIZE` (2) members;
the ids of every below-minimum union-find group appear in the pipeline's
`unclusteredIds`; and the clustered ids together with the unclustered ids
are exactly the input ids — every input id appears, and none appears
twice. -/
theorem C3_min_size_and_exact_partition
    (articles : List WebClustering.WebArticle)
    (hnodup : (articles.map (·.id)).Nodup) :
    (∀ c ∈ WebClustering.clusterArticles articles,
        WebClustering.MIN_CLUSTER_SIZE ≤ c.2.length) ∧
      (∀ g ∈ WebClustering.clusterGroups articles,
        g.2.length < WebClustering.MIN_CLUSTER_SIZE →
        ∀ id ∈ g.2, id ∈ (WebClustering.clusterIntoStoriesIds articles).2) ∧
      (∀ id, id ∈ articles.map (·.id) ↔
        (id ∈ ((WebClustering.clusterIntoStoriesIds articles).1).flatten ∨
          id ∈ (WebClustering.clusterIntoStoriesIds articles).2)) ∧
      (((WebClustering.clusterIntoStoriesIds articles).1).flatten ++
        (WebClustering.clusterIntoStoriesIds articles).2).Nodup := by
  by_cases hemp : articles = []
  · subst hemp
    have hca : WebClustering.clusterArticles [] = [] := rfl
    have hcis : WebClustering.clusterIntoStoriesIds [] = ([], []) := rfl
    have hgr : WebClustering.clusterGroups [] = [] := rfl
    refine ⟨?_, ?_, ?_, ?_⟩
    · rw [hca]
      intro c hc
      simp at hc
    · rw [hgr]
      intro g hg
      simp at hg
    · intro id
      rw [hcis]
      simp
    · rw [hcis]
      simp
  · have hlen : ¬(articles.length = 0) := by
      simpa [List.length_eq_zero] using hemp
    have hca : WebClustering.clusterArticles articles =
        ((WebClustering.clusterGroups articles).filter
          (fun c => WebClustering.MIN_CLUSTER_SIZE ≤ c.2.length)).map
          (fun c => (c.1, c.2.filterMap
            (fun id => mget (WebClustering.buildArticleMap articles) id))) := by
      rw [WebClustering.clusterArticles, if_neg hlen]
      exact (clusterFold_eq (WebClustering.buildArticleMap articles)
        (WebClustering.clusterGroups articles) []
        (by simpa using clusterGroups_keys_nodup articles)).trans
        (List.nil_append _)
    have hamap : ∀ id ∈ articles.map (·.id),
        ∃ a, mget (WebClustering.buildArticleMap articles) id = some a ∧
          a ∈ articles ∧ a.id = id := by
      intro id hid
      obtain ⟨a, ha, ham, haid⟩ := mget_pairlist hid
      refine ⟨a, ?_, ham, haid⟩
      rw [buildArticleMap_eq articles hnodup]
      exact ha
    have hmemids : ∀ g ∈ WebClustering.clusterGroups articles,
        ∀ id ∈ g.2, id ∈ articles.map (·.id) := by
      intro g hg id hid
      have hmem : id ∈ ((WebClustering.clusterGroups articles).map
          (·.2)).flatten :=
        List.mem_flatten.mpr ⟨g.2, List.mem_map_of_mem _ hg, hid⟩
      exact (clusterGroups_flatten_perm articles hnodup).mem_iff.mp hmem
    have hmapid : ∀ g ∈ WebClustering.clusterGroups articles,
        ((g.2.filterMap (fun id =>
          mget (WebClustering.buildArticleMap articles) id)).map (·.id)) =
          g.2 := by
      intro g hg
      refine filterMap_mget_map_id ?_
      intro id hid
      obtain ⟨a, ha, _, haid⟩ := hamap id (hmemids g hg id hid)
      exact ⟨a, ha, haid⟩
    have hlenpres : ∀ g ∈ WebClustering.clusterGroups articles,
        (g.2.filterMap (fun id =>
          mget (WebClustering.buildArticleMap articles) id)).length =
          g.2.length := by
      intro g hg
      refine filterMap_length_of_isSome ?_
      intro id hid
      obtain ⟨a, ha, _, _⟩ := hamap id (hmemids g hg id hid)
      rw [ha]
      rfl
    have hfst : (WebClustering.clusterIntoStoriesIds articles).1 =
        (WebClustering.clusterArticles articles).map
          (fun c => c.2.map (·.id)) := rfl
    have hcids : (WebClustering.clusterIntoStoriesIds articles).1 =
        ((WebClustering.clusterGroups articles).filter
          (fun c => WebClustering.MIN_CLUSTER_SIZE ≤ c.2.length)).map
          (·.2) := by
      rw [hfst, hca, List.map_map]
      refine List.map_congr_left ?_
      intro c hc
      have hcg : c ∈ WebClustering.clusterGroups articles :=
        (List.mem_filter.mp hc).1
      exact hmapid c hcg
    have hpart : ((((WebClustering.clusterGroups articles).filter
          (fun c => WebClustering.MIN_CLUSTER_SIZE ≤ c.2.length)).map
          (·.2)).flatten ++
        (((WebClustering.clusterGroups articles).filter
          (fun c => !(decide (WebClustering.MIN_CLUSTER_SIZE ≤
            c.2.length)))).map (·.2)).flatten).Perm
        (articles.map (·.id)) := by
      have h1 := List.filter_append_perm
        (fun c => decide (WebClustering.MIN_CLUSTER_SIZE ≤ c.2.length))
        (WebClustering.clusterGroups articles)
      have h2 := ((h1.map (·.2)).flatten)
      rw [List.map_append, List.flatten_append] at h2
      exact h2.trans (clusterGroups_flatten_perm articles hnodup)
    have hndk : ((((WebClustering.clusterGroups articles).filter
          (fun c => WebClustering.MIN_CLUSTER_SIZE ≤ c.2.length)).map
          (·.2)).flatten ++
        (((WebClustering.clusterGroups articles).filter
          (fun c => !(decide (WebClustering.MIN_CLUSTER_SIZE ≤
            c.2.length)))).map (·.2)).flatten).Nodup :=
      hpart.nodup_iff.mpr hnodup
    obtain ⟨hndFK, hndFD, hdisj⟩ := List.nodup_append.mp hndk
    have hflat : ((WebClustering.clusterIntoStoriesIds articles).1).flatten =
        (((WebClustering.clusterGroups articles).filter
          (fun c => WebClustering.MIN_CLUSTER_SIZE ≤ c.2.length)).map
          (·.2)).flatten := by
      rw [hcids]
    have hsnd2 : (WebClustering.clusterIntoStoriesIds articles).2 =
        (articles.map (·.id)).filter (fun id =>
          !((((WebClustering.clusterIntoStoriesIds articles).1).flatten).contains
            id)) := by
      have h := map_filter_by_image
        (fun a : WebClustering.WebArticle => a.id)
        (fun id =>
          !((((WebClustering.clusterIntoStoriesIds articles).1).flatten).contains
            id)) articles
      exact h
    refine ⟨?_, ?_, ?_, ?_⟩
    · intro c hc
      rw [hca] at hc
      obtain ⟨g, hg, hgc⟩ := List.mem_map.mp hc
      have hgg : g ∈ WebClustering.clusterGroups articles :=
        (List.mem_filter.mp hg).1
      have hkeep : WebClustering.MIN_CLUSTER_SIZE ≤ g.2.length := by
        simpa using (List.mem_filter.mp hg).2
      rw [← hgc]
      simpa [hlenpres g hgg] using hkeep
    · intro g hg hsmall id hid
      have hdrop : g ∈ (WebClustering.clusterGroups articles).filter
          (fun c => !(decide (WebClustering.MIN_CLUSTER_SIZE ≤
            c.2.length))) := by
        refine List.mem_filter.mpr ⟨hg, ?_⟩
        simp only [Bool.not_eq_true']
        simpa [Nat.not_le] using hsmall
      have hFD : id ∈ (((WebClustering.clusterGroups articles).filter
          (fun c => !(decide (WebClustering.MIN_CLUSTER_SIZE ≤
            c.2.length)))).map (·.2)).flatten :=
        List.mem_flatten.mpr ⟨g.2, List.mem_map_of_mem _ hdrop, hid⟩
      have hnotFK : id ∉ (((WebClustering.clusterGroups articles).filter
          (fun c => WebClustering.MIN_CLUSTER_SIZE ≤ c.2.length)).map
          (·.2)).flatten := fun hFK => hdisj hFK hFD
      rw [hsnd2]
      refine List.mem_filter.mpr ⟨hmemids g hg id hid, ?_⟩
      rw [hflat]
      simpa using hnotFK
    · intro id
      constructor
      · intro hid
        by_cases hin : id ∈
            ((WebClustering.clusterIntoStoriesIds articles).1).flatten
        · exact Or.inl hin
        · refine Or.inr ?_
          rw [hsnd2]
          refine List.mem_filter.mpr ⟨hid, ?_⟩
          simpa using hin
      · intro hid
        rcases hid with hid | hid
        · rw [hflat] at hid
          refine hpart.mem_iff.mp ?_
          exact List.mem_append_left _ hid
        · rw [hsnd2] at hid
          exact (List.mem_filter.mp hid).1
    · rw [hsnd2, hflat]
      refine List.nodup_append.mpr ⟨hndFK, hnodup.filter _, ?_⟩
      intro a ha hb
      have h1 := (List.mem_filter.mp hb).2
      simp only [Bool.not_eq_true'] at h1
      have h2 : ((((WebClustering.clusterGroups articles).filter
          (fun c => WebClustering.MIN_CLUSTER_SIZE ≤ c.2.length)).map
          (·.2)).flatten).contains a = true := by simpa using ha
      rw [h1] at h2
      exact Bool.noConfusion h2

theorem C3_min_size_and_exact_partition_witness :
    (((WebClustering.clusterIntoStoriesIds demoWebArticles).1).flatten ++
        (WebClustering.clusterIntoStoriesIds demoWebArticles).2).Nodup ∧
      ("w1" ∈ demoWebArticles.map (·.id) ↔
        ("w1" ∈ ((WebClustering.clusterIntoStoriesIds
            demoWebArticles).1).flatten ∨
          "w1" ∈ (WebClustering.clusterIntoStoriesIds demoWebArticles).2)) :=
  ⟨(C3_min_size_and_exact_partition demoWebArticles (by decide)).2.2.2,
    (C3_min_size_and_exact_partition demoWebArticles (by decide)).2.2.1 "w1"⟩

/-! ## Claim C2: source diversity in the greedy cluster builder -/
theorem innerFold_shape (config : AggregationConfig) (article : NewsArticle)
    (cands : List NewsArticle) :
    ∀ (ca : List NewsArticle × List String) (rest0 : List NewsArticle),
      ca.1 = article :: rest0 →
      (∀ a ∈ rest0, a.sourceId ≠ article.sourceId) →
      ∃ rest1,
        (cands.foldl (StoryAggregator.greedyCandidateStep config article)
          ca).1 = article :: rest1 ∧
        ∀ a ∈ rest1, a.sourceId ≠ article.sourceId := by
  induction cands with
  | nil => exact fun ca rest0 h1 h2 => ⟨rest0, h1, h2⟩
  | cons cand rest ih =>
    intro ca rest0 h1 h2
    rw [List.foldl_cons]
    by_cases ha : (ca.2.contains cand.id : Bool)
    · exact ih _ rest0
        (by rw [StoryAggregator.greedyCandidateStep, if_pos ha]; exact h1) h2
    · by_cases hs : cand.sourceId = article.sourceId
      · exact ih _ rest0
          (by rw [StoryAggregator.greedyCandidateStep, if_neg
              (by simpa using ha), if_pos hs]
              exact h1) h2
      · by_cases hsim : config.similarityThreshold ≤
            calculateSimilarity article cand
        · refine ih _ (rest0 ++ [cand]) ?_ ?_
          · rw [StoryAggregator.greedyCandidateStep, if_neg
              (by simpa using ha), if_neg hs, if_pos hsim]
            simp [h1]
          · intro a hmem
            rcases List.mem_append.mp hmem with hmem | hmem
            · exact h2 a hmem
            · rw [List.mem_singleton.mp hmem]
              exact hs
        · exact ih _ rest0
            (by rw [StoryAggregator.greedyCandidateStep, if_neg
                (by simpa using ha), if_neg hs, if_neg hsim]
                exact h1) h2

theorem outerFold_shape (config : AggregationConfig)
    (sorted : List NewsArticle) (arts : List NewsArticle) :
    ∀ acc : List (List NewsArticle) × List String,
      (∀ c ∈ acc.1, ∃ seed rest, c = seed :: rest ∧
        ∀ a ∈ rest, a.sourceId ≠ seed.sourceId) →
      ∀ c ∈ (arts.foldl (StoryAggregator.greedySeedStep config sorted)
          acc).1,
        ∃ seed rest, c = seed :: rest ∧
          ∀ a ∈ rest, a.sourceId ≠ seed.sourceId := by
  induction arts with
  | nil => exact fun acc hacc => hacc
  | cons article rest ih =>
    intro acc hacc
    rw [List.foldl_cons]
    refine ih _ ?_
    by_cases ha : (acc.2.contains article.id : Bool)
    · rw [StoryAggregator.greedySeedStep, if_pos ha]
      exact hacc
    · rw [StoryAggregator.greedySeedStep, if_neg (by simpa using ha)]
      by_cases hk : config.minArticlesPerStory ≤
          (sorted.foldl (StoryAggregator.greedyCandidateStep config article)
            ([article], acc.2 ++ [article.id])).1.length
      · rw [if_pos hk]
        intro c hc
        rcases List.mem_append.mp hc with hc | hc
        · exact hacc c hc
        · obtain ⟨rest1, hr1, hr2⟩ := innerFold_shape config article sorted
            ([article], acc.2 ++ [article.id]) [] rfl (by simp)
          rw [List.mem_singleton.mp hc]
          exact ⟨article, rest1, hr1, hr2⟩
      · rw [if_neg hk]
        exact hacc

/-- C2 (amended): in the greedy cluster builder every returned cluster
consists of a seed article followed by members whose `sourceId` differs from
the seed's (`candidate.sourceId === article.sourceId` candidates are
skipped); two non-seed members may still share a source, so pairwise
distinctness of member sources does not hold. -/
theorem C2_no_member_shares_seed_source (config : AggregationConfig)
    (articles : List NewsArticle) :
    ∀ c ∈ StoryAggregator.clusterArticles config articles,
      ∃ seed rest, c = seed :: rest ∧
        ∀ a ∈ rest, a.sourceId ≠ seed.sourceId := by
  intro c hc
  exact outerFold_shape config
    (stableSort (fun a b => b.publishedAt < a.publishedAt) articles)
    (stableSort (fun a b => b.publishedAt < a.publishedAt) articles)
    ([], []) (by simp) c hc

/-- C2 (counterexample): the greedy cluster builder returns one cluster
whose members come from sources `s0`, `s1`, `s1` — two member articles from
the same source, refuting the pairwise source-diversity claim. -/
theorem C2_counterexample :
    (StoryAggregator.clusterArticles defaultAggregationConfig
        demoSameSource).map (fun c => c.map (·.sourceId)) =
      [["s0", "s1", "s1"]] := by
  norm_num +decide [StoryAggregator.clusterArticles,
    StoryAggregator.greedySeedStep, StoryAggregator.greedyCandidateStep,
    stableSort, stableInsert, calculateSimilarity, extractKeywords,
    keywordFreq, normalizeWords, WebClustering.splitNonWord,
    WebClustering.isWordChar, WebClustering.asciiLower,
    WebClustering.isPureNumeric, keywordStopWords, jsSplitWS, jsSplitWSAux,
    jsWordChar, mset, mget, demoSameSource, demoArtA, demoArtB, demoArtC,
    defaultAggregationConfig]

theorem C2_no_member_shares_seed_source_witness :
    ∃ seed rest, [demoArtA, demoArtB, demoArtC] = seed :: rest ∧
      ∀ a ∈ rest, a.sourceId ≠ seed.sourceId :=
  C2_no_member_shares_seed_source defaultAggregationConfig demoSameSource
    [demoArtA, demoArtB, demoArtC]
    (by norm_num +decide [StoryAggregator.clusterArticles,
      StoryAggregator.greedySeedStep, StoryAggregator.greedyCandidateStep,
      stableSort, stableInsert, calculateSimilarity, extractKeywords,
      keywordFreq, normalizeWords, WebClustering.splitNonWord,
      WebClustering.isWordChar, WebClustering.asciiLower,
      WebClustering.isPureNumeric, keywordStopWords, jsSplitWS, jsSplitWSAux,
      jsWordChar, mset, mget, demoSameSource, demoArtA, demoArtB, demoArtC,
      defaultAggregationConfig])

namespace BiasAnalyzer

/-- An `ite` of two nonnegative rationals is nonnegative. -/
lemma ite_nonneg (c : Prop) [Decidable c] (a b : ℚ) (ha : 0 ≤ a)
    (hb : 0 ≤ b) : 0 ≤ if c then a else b := by
  split <;> assumption

/-- A capped score `min 1 (s / m)` lies in `[0, 1]` when `s` is nonnegative
and the cap divisor `m` is positive. -/
lemma min_one_div_mem (s m : ℚ) (hs : 0 ≤ s) (hm : 0 < m) :
    0 ≤ min 1 (s / m) ∧ min 1 (s / m) ≤ 1 :=
  ⟨le_min zero_le_one (div_nonneg hs hm.le), min_le_left _ _⟩

/-- The normalized lean ratio `(R - L) / (L + R)` (or `0`) lies in
`[-1, 1]`. -/
lemma lean_ratio_bounds (L R : ℕ) :
    -1 ≤ (if L + R = 0 then (0 : ℚ)
          else ((R : ℚ) - (L : ℚ)) / ((L + R : ℕ) : ℚ)) ∧
      (if L + R = 0 then (0 : ℚ)
       else ((R : ℚ) - (L : ℚ)) / ((L + R : ℕ) : ℚ)) ≤ 1 := by
  rcases Nat.eq_zero_or_pos (L + R) with h | h
  · rw [if_pos h]
    norm_num
  · have h0 : L + R ≠ 0 := h.ne'
    rw [if_neg h0]
    have hpos : (0 : ℚ) < ((L + R : ℕ) : ℚ) := by exact_mod_cast h
    have hL : (0 : ℚ) ≤ (L : ℚ) := Nat.cast_nonneg L
    have hR : (0 : ℚ) ≤ (R : ℚ) := Nat.cast_nonneg R
    constructor
    · rw [le_div_iff₀ hpos]
      push_cast
      linarith
    · rw [div_le_one hpos]
      push_cast
      linarith

/-- The political-lean score is in `[-1, 1]` for every input. -/
lemma detectPoliticalLean_bounds (cfg : AnalysisConfig) (text : String) :
    -1 ≤ ( detectPoliticalLean cfg text).1 ∧
      ( detectPoliticalLean cfg text).1 ≤ 1 := by
  simp only [ detectPoliticalLean]
  exact lean_ratio_bounds _ _

/-- The sensationalism score is in `[0, 1]` for every input. -/
lemma detectSensationalism_bounds (cfg : AnalysisConfig)
    (text title : String) :
    0 ≤ (detectSensationalism cfg text title).1 ∧
      (detectSensationalism cfg text title).1 ≤ 1 := by
  simp only [detectSensationalism]
  refine min_one_div_mem _ _ ?_ (by norm_num)
  refine add_nonneg (add_nonneg (add_nonneg (add_nonneg (add_nonneg ?_ ?_)
    ?_) ?_) ?_) ?_
  · refine List.sum_nonneg ?_
    intro x hx
    simp only [List.mem_map] at hx
    obtain ⟨t, _, rfl⟩ := hx
    positivity
  · exact ite_nonneg _ _ _ (by norm_num) le_rfl
  · exact ite_nonneg _ _ _ (by norm_num) le_rfl
  · exact ite_nonneg _ _ _ (by norm_num) le_rfl
  · exact ite_nonneg _ _ _ (by norm_num) le_rfl
  · exact ite_nonneg _ _ _ (by norm_num) le_rfl

/-- The opinion-mixing score is in `[0, 1]` for every input. -/
lemma detectOpinionMixing_bounds (cfg : AnalysisConfig) (text : String) :
    0 ≤ (detectOpinionMixing cfg text).1 ∧
      (detectOpinionMixing cfg text).1 ≤ 1 := by
  simp only [detectOpinionMixing]
  refine min_one_div_mem _ _ ?_
    (lt_of_lt_of_le (by norm_num) (le_max_left _ _))
  refine List.sum_nonneg ?_
  intro x hx
  simp only [List.mem_map] at hx
  obtain ⟨r, _, rfl⟩ := hx
  positivity

/-- The weak-attribution score is in `[0, 1]` for every input. -/
lemma detectTransparency_bounds (cfg : AnalysisConfig) (text : String) :
    0 ≤ (detectTransparency cfg text).1 ∧
      (detectTransparency cfg text).1 ≤ 1 := by
  simp only [detectTransparency]
  refine min_one_div_mem _ _ ?_ (by norm_num)
  refine List.sum_nonneg ?_
  intro x hx
  simp only [List.mem_map] at hx
  obtain ⟨r, _, rfl⟩ := hx
  positivity

/-- Heuristic confidence is at least `1/2`. -/
lemma analyzeHeuristic_conf_ge_half (cfg : AnalysisConfig)
    (article : NewsArticle) (source : Option NewsSource) :
    1 / 2 ≤ (analyzeHeuristic cfg article source).confidence := by
  simp only [analyzeHeuristic]
  refine le_min (by norm_num) ?_
  have h : (0 : ℚ) ≤
      ((WebClustering.asciiLower (article.title ++ " " ++ article.summary ++
        " " ++ article.content.getD "")).length : ℚ) / 5000 * 0.4 := by
    positivity
  nlinarith

/-- The static analysis keeps indicators in bounds whenever the resolved
source's profile is in bounds (the unknown profile is in bounds). -/
lemma analyzeStatic_bounds (article : NewsArticle)
    (src : Option NewsSource)
    (h : ∀ s ∈ src, boundedIndicators s.knownBias) :
    boundedIndicators (analyzeStatic article src).indicators := by
  cases src with
  | none =>
    show boundedIndicators
      (createUnknownAnalysis "Source not found in registry").indicators
    simp only [boundedIndicators, createUnknownAnalysis]
    norm_num
  | some s =>
    exact h s rfl

/-- The heuristic analysis keeps all five indicators in bounds. -/
lemma analyzeHeuristic_bounds (cfg : AnalysisConfig)
    (article : NewsArticle) (src : Option NewsSource)
    (h : ∀ s ∈ src, boundedIndicators s.knownBias) :
    boundedIndicators (analyzeHeuristic cfg article src).indicators := by
  simp only [analyzeHeuristic, boundedIndicators]
  refine ⟨(detectPoliticalLean_bounds _ _).1,
    (detectPoliticalLean_bounds _ _).2,
    (detectSensationalism_bounds _ _ _).1,
    (detectSensationalism_bounds _ _ _).2, ?_, ?_,
    (detectOpinionMixing_bounds _ _).1,
    (detectOpinionMixing_bounds _ _).2, ?_, ?_⟩
  · cases src with
    | none => norm_num
    | some s =>
      obtain ⟨_, _, _, _, h5, _, _, _, _, _⟩ := h s rfl
      simpa using h5
  · cases src with
    | none => norm_num
    | some s =>
      obtain ⟨_, _, _, _, _, h6, _, _, _, _⟩ := h s rfl
      simpa using h6
  · have := (detectTransparency_bounds cfg
      (WebClustering.asciiLower (article.title ++ " " ++ article.summary ++
        " " ++ article.content.getD ""))).2
    linarith
  · have := (detectTransparency_bounds cfg
      (WebClustering.asciiLower (article.title ++ " " ++ article.summary ++
        " " ++ article.content.getD ""))).1
    linarith

/-- A convex blend with weight in `[0, 1]` stays inside a common
interval. -/
lemma blend_bounds (lo hi x y w : ℚ) (hx1 : lo ≤ x) (hx2 : x ≤ hi)
    (hy1 : lo ≤ y) (hy2 : y ≤ hi) (hw1 : 0 ≤ w) (hw2 : w ≤ 1) :
    lo ≤ x * w + y * (1 - w) ∧ x * w + y * (1 - w) ≤ hi := by
  constructor <;> nlinarith

/-- The static weight is `3/10` or `7/10`. -/
lemma staticWeightOf_cases (article : NewsArticle) :
    staticWeightOf article = 3 / 10 ∨ staticWeightOf article = 7 / 10 := by
  unfold staticWeightOf
  split <;> norm_num

/-- The static weight lies in `[0, 1]`. -/
lemma staticWeightOf_mem (article : NewsArticle) :
    0 ≤ staticWeightOf article ∧ staticWeightOf article ≤ 1 := by
  rcases staticWeightOf_cases article with h | h <;> rw [h] <;> norm_num

/-- The combined analysis keeps all five indicators in bounds. -/
lemma analyzeCombined_bounds (cfg : AnalysisConfig)
    (article : NewsArticle) (src : Option NewsSource)
    (h : ∀ s ∈ src, boundedIndicators s.knownBias) :
    boundedIndicators (analyzeCombined cfg article src).indicators := by
  obtain ⟨s1, s2, s3, s4, s5, s6, s7, s8, s9, s10⟩ :=
    analyzeStatic_bounds article src h
  obtain ⟨t1, t2, t3, t4, t5, t6, t7, t8, t9, t10⟩ :=
    analyzeHeuristic_bounds cfg article src h
  obtain ⟨w1, w2⟩ := staticWeightOf_mem article
  simp only [analyzeCombined, boundedIndicators]
  exact ⟨(blend_bounds _ _ _ _ _ s1 s2 t1 t2 w1 w2).1,
    (blend_bounds _ _ _ _ _ s1 s2 t1 t2 w1 w2).2,
    (blend_bounds _ _ _ _ _ s3 s4 t3 t4 w1 w2).1,
    (blend_bounds _ _ _ _ _ s3 s4 t3 t4 w1 w2).2,
    (blend_bounds _ _ _ _ _ s5 s6 t5 t6 w1 w2).1,
    (blend_bounds _ _ _ _ _ s5 s6 t5 t6 w1 w2).2,
    (blend_bounds _ _ _ _ _ s7 s8 t7 t8 w1 w2).1,
    (blend_bounds _ _ _ _ _ s7 s8 t7 t8 w1 w2).2,
    (blend_bounds _ _ _ _ _ s9 s10 t9 t10 w1 w2).1,
    (blend_bounds _ _ _ _ _ s9 s10 t9 t10 w1 w2).2⟩

end BiasAnalyzer

/-- C7: for every configuration, article and resolved source whose
pre-configured profile is in bounds, both the heuristic and the combined
analyses produce indicators within the documented bounds (`politicalLean`
in `[-1, 1]`, the four others in `[0, 1]`). -/
theorem C7_indicator_bounds (cfg : AnalysisConfig) (article : NewsArticle)
    (src : Option NewsSource)
    (h : ∀ s ∈ src, BiasAnalyzer.boundedIndicators s.knownBias) :
    BiasAnalyzer.boundedIndicators
      (BiasAnalyzer.analyzeHeuristic cfg article src).indicators ∧
    BiasAnalyzer.boundedIndicators
      (BiasAnalyzer.analyzeCombined cfg article src).indicators :=
  ⟨BiasAnalyzer.analyzeHeuristic_bounds cfg article src h,
   BiasAnalyzer.analyzeCombined_bounds cfg article src h⟩

/-- C7 witness: the bounds hold at a concrete configuration and article
with an unresolved source. -/
theorem C7_indicator_bounds_witness :
    BiasAnalyzer.boundedIndicators
      (BiasAnalyzer.analyzeHeuristic ⟨AnalysisMethod.heuristic, true⟩
        demoSensArticle none).indicators ∧
    BiasAnalyzer.boundedIndicators
      (BiasAnalyzer.analyzeCombined ⟨AnalysisMethod.heuristic, true⟩
        demoSensArticle none).indicators :=
  C7_indicator_bounds ⟨AnalysisMethod.heuristic, true⟩ demoSensArticle none
    (fun s hs => absurd hs (Option.not_mem_none s))

/-- C6 (amended): for an article whose source is not in the registry, the
static mode does not throw and returns exactly the unknown analysis
(confidence `0.1`, indicators `(0, 0.5, 0.5, 0.5, 0.5)`, non-empty
explanatory summary); the combined mode also does not throw, but it blends
the unknown analysis with the heuristic one, so its confidence exceeds
`1/5` — it is not the claimed roughly-`0.1` unknown analysis. -/
theorem C6_unknown_source_static_exact_combined_blended
    (article : NewsArticle) (ie : Bool)
    (h : getSource article.sourceId = none) :
    BiasAnalyzer.analyze ⟨AnalysisMethod.staticM, ie⟩ article =
      Except.ok
        (BiasAnalyzer.createUnknownAnalysis "Source not found in registry") ∧
    (BiasAnalyzer.createUnknownAnalysis
      "Source not found in registry").confidence = 1 / 10 ∧
    (BiasAnalyzer.createUnknownAnalysis
      "Source not found in registry").indicators =
        ⟨0, 1 / 2, 1 / 2, 1 / 2, 1 / 2⟩ ∧
    (BiasAnalyzer.createUnknownAnalysis
      "Source not found in registry").summary ≠ "" ∧
    ∃ b, BiasAnalyzer.analyze ⟨AnalysisMethod.combined, ie⟩ article =
        Except.ok b ∧ 1 / 5 < b.confidence := by
  refine ⟨?_, by norm_num [BiasAnalyzer.createUnknownAnalysis], ?_,
    by decide, ?_⟩
  · simp [BiasAnalyzer.analyze, h, BiasAnalyzer.analyzeStatic]
  · simp only [BiasAnalyzer.createUnknownAnalysis]
    norm_num
  · refine ⟨BiasAnalyzer.analyzeCombined ⟨AnalysisMethod.combined, ie⟩
      article none, by simp [BiasAnalyzer.analyze, h], ?_⟩
    have hsc : (BiasAnalyzer.analyzeStatic article none).confidence =
        1 / 10 := by
      norm_num [BiasAnalyzer.analyzeStatic,
        BiasAnalyzer.createUnknownAnalysis]
    have h2 := BiasAnalyzer.analyzeHeuristic_conf_ge_half
      ⟨AnalysisMethod.combined, ie⟩ article none
    have hsw := BiasAnalyzer.staticWeightOf_cases article
    simp only [BiasAnalyzer.analyzeCombined]
    rw [hsc]
    rcases hsw with hw | hw <;> rw [hw] <;> linarith

/-- C6 witness: the amended theorem at a concrete unknown-source
article. -/
theorem C6_unknown_source_static_exact_combined_blended_witness :
    BiasAnalyzer.analyze ⟨AnalysisMethod.staticM, true⟩ demoUnknownArticle =
      Except.ok
        (BiasAnalyzer.createUnknownAnalysis "Source not found in registry") ∧
    (BiasAnalyzer.createUnknownAnalysis
      "Source not found in registry").confidence = 1 / 10 ∧
    (BiasAnalyzer.createUnknownAnalysis
      "Source not found in registry").indicators =
        ⟨0, 1 / 2, 1 / 2, 1 / 2, 1 / 2⟩ ∧
    (BiasAnalyzer.createUnknownAnalysis
      "Source not found in registry").summary ≠ "" ∧
    ∃ b, BiasAnalyzer.analyze ⟨AnalysisMethod.combined, true⟩
        demoUnknownArticle = Except.ok b ∧ 1 / 5 < b.confidence :=
  C6_unknown_source_static_exact_combined_blended demoUnknownArticle true
    (by decide)

/-- C6 (counterexample): the combined-mode analysis of a concrete article
with an unregistered source has confidence exactly `27539/125000`
(`0.220312`), more than twice the claimed roughly-`0.1` value. -/
theorem C6_counterexample :
    getSource demoUnknownArticle.sourceId = none ∧
    (BiasAnalyzer.analyze ⟨AnalysisMethod.combined, true⟩
        demoUnknownArticle).toOption.map BiasAnalysis.confidence =
      some (27539 / 125000) ∧ (1 / 5 : ℚ) < 27539 / 125000 := by
  have hgs : getSource demoUnknownArticle.sourceId = none := by decide
  refine ⟨hgs, ?_, by norm_num⟩
  have htext : (WebClustering.asciiLower (demoUnknownArticle.title ++ " " ++
      demoUnknownArticle.summary ++ " " ++
      demoUnknownArticle.content.getD "")).length = 13 := by decide
  have hsw : BiasAnalyzer.staticWeightOf demoUnknownArticle = 7 / 10 := by
    norm_num [BiasAnalyzer.staticWeightOf, BiasAnalyzer.hasContentB,
      demoUnknownArticle]
  simp only [BiasAnalyzer.analyze, hgs, BiasAnalyzer.analyzeCombined,
    BiasAnalyzer.analyzeStatic, BiasAnalyzer.analyzeHeuristic,
    BiasAnalyzer.createUnknownAnalysis, Except.toOption, Option.map]
  rw [hsw, htext]
  norm_num [min_def]

namespace BiasAnalyzer

/-- Rewriting the sensational word score through a computed count list. -/
lemma sum_map_count_half (L : List String) (text : String)
    (counts : List ℕ)
    (h : L.map (fun t => (countOcc [t] true text).1) = counts) :
    (L.map (fun t => ((countOcc [t] true text).1 : ℚ) * (1 / 2))).sum =
      (counts.map (fun n : ℕ => (n : ℚ) * (1 / 2))).sum := by
  rw [← h, List.map_map]
  rfl

end BiasAnalyzer

/-- C8: under the heuristic method, the article titled
`"YOU WON'T BELIEVE WHAT HAPPENED!!!"` gets a strictly higher
sensationalism score than the otherwise-identical article titled
`"Senate Passes Budget Bill"`, and its analysis carries an evidence entry
with `indicatorType = "sensationalism"`. -/
theorem C8_sensational_title_scores_higher :
    (BiasAnalyzer.analyzeHeuristic ⟨AnalysisMethod.heuristic, true⟩
        demoSensArticle
        (getSource demoSensArticle.sourceId)).indicators.sensationalism >
      (BiasAnalyzer.analyzeHeuristic ⟨AnalysisMethod.heuristic, true⟩
        demoPlainArticle
        (getSource demoPlainArticle.sourceId)).indicators.sensationalism ∧
    ∃ e ∈ (BiasAnalyzer.analyzeHeuristic ⟨AnalysisMethod.heuristic, true⟩
        demoSensArticle (getSource demoSensArticle.sourceId)).evidence,
      e.indicatorType = "sensationalism" := by
  have hA : WebClustering.asciiLower (demoSensArticle.title ++ " " ++
      demoSensArticle.summary ++ " " ++ demoSensArticle.content.getD "") =
      "you won\x27t believe what happened!!!  " := by decide
  have hB : WebClustering.asciiLower (demoPlainArticle.title ++ " " ++
      demoPlainArticle.summary ++ " " ++ demoPlainArticle.content.getD "") =
      "senate passes budget bill  " := by decide
  have hT : demoSensArticle.title = "YOU WON\x27T BELIEVE WHAT HAPPENED!!!" :=
    rfl
  have hTP : demoPlainArticle.title = "Senate Passes Budget Bill" := rfl
  have hm1 : BiasAnalyzer.LOADED_SENSATIONAL.map (fun t =>
      (BiasAnalyzer.countOcc [t] true
        "you won\x27t believe what happened!!!  ").1) =
      [0, 0, 0, 0, 0, 0, 0, 0, 0, 0, 0, 0, 0, 0, 0, 0, 0, 0, 1, 0] := by
    decide
  have hm2 : BiasAnalyzer.LOADED_SENSATIONAL.map (fun t =>
      (BiasAnalyzer.countOcc [t] true "senate passes budget bill  ").1) =
      [0, 0, 0, 0, 0, 0, 0, 0, 0, 0, 0, 0, 0, 0, 0, 0, 0, 0, 0, 0] := by
    decide
  have hv1 : (BiasAnalyzer.detectSensationalism
      ⟨AnalysisMethod.heuristic, true⟩
      "you won\x27t believe what happened!!!  "
      "YOU WON\x27T BELIEVE WHAT HAPPENED!!!").1 = 1 / 2 := by
    simp only [BiasAnalyzer.detectSensationalism]
    rw [BiasAnalyzer.sum_map_count_half _ _ _ hm1]
    norm_num +decide [min_def]
  have hv2 : (BiasAnalyzer.detectSensationalism
      ⟨AnalysisMethod.heuristic, true⟩ "senate passes budget bill  "
      "Senate Passes Budget Bill").1 = 0 := by
    simp only [BiasAnalyzer.detectSensationalism]
    rw [BiasAnalyzer.sum_map_count_half _ _ _ hm2]
    norm_num +decide [min_def]
  have hev : (BiasAnalyzer.detectSensationalism
      ⟨AnalysisMethod.heuristic, true⟩
      "you won\x27t believe what happened!!!  "
      "YOU WON\x27T BELIEVE WHAT HAPPENED!!!").2 =
      [⟨"you won\x27t believe", "sensationalism",
        "Sensational language: \"you won\x27t believe\""⟩] := by decide
  constructor
  · simp only [BiasAnalyzer.analyzeHeuristic]
    rw [hA, hB, hT, hTP, hv1, hv2]
    norm_num
  · simp only [BiasAnalyzer.analyzeHeuristic]
    rw [hA, hT]
    refine ⟨⟨"you won\x27t believe", "sensationalism",
      "Sensational language: \"you won\x27t believe\""⟩, ?_, rfl⟩
    have hie : (⟨AnalysisMethod.heuristic, true⟩ :
        AnalysisConfig).includeEvidence = true := rfl
    simp only [hie, if_true]
    apply List.mem_append_left
    apply List.mem_append_left
    apply List.mem_append_right
    rw [hev]
    exact List.mem_singleton_self _
